import Mathlib

/-! # fb-rotate: display resolution and rotation encoding

A shallow embedding of `fb-rotate.c`: the angle-to-transform encoding
(`angle2options`), the display lookups (`InternalID`, `nonInternalID`,
`cgIDfromU32`), the re-anchoring of the layout (`setMainDisplay`) and the
option loop of `main`.

Conventions of the embedding.
* `long` and `int` values are `Int`; C's truncating `/` and `%` are `Int.tdiv`
  and `Int.tmod`.
* `CGDirectDisplayID`, `uint32_t` and `IOOptionBits` values are `Nat` below
  `2 ^ 32`; the one narrowing cast of the program (the result of `strtoul`)
  is an explicit `% 2 ^ 32`.
* The window server is a read-only record `Platform` of what each Core
  Graphics query answers; what the program does to it is a list of `Event`s.
* `exit` is modelled by `Outcome.exit`; a function that may leave the program
  returns `Except Outcome _`.
* A read outside the `anglebits` table has no defined result: `angle2options`
  returns `none` there and the program's outcome is `Outcome.undefined`.
* Display origins are whole numbers. Where `setMainDisplay` converts one from
  `double` to `int` or `int32_t`, the conversion is `toInt32`: it has a result
  only for a value of the 32-bit range, and the outcome is
  `Outcome.undefined` otherwise.
-/

namespace FbRotate

/-! ## Constants -/

/-- The capacity of every `onlineDisplays` array (`#define MAX_DISPLAYS 16`). -/
def MAX_DISPLAYS : Nat := 16

/-- The set-transform flag, `kIOFBSetTransform = 0x00000400`. -/
def kIOFBSetTransform : Nat := 0x00000400

/-- The success code of Core Graphics and IOKit calls. -/
def kCGErrorSuccess : Int := 0

/-- The four rotation enumerators of `IOGraphicsTypes.h`. The header is not
part of the program, so their values are a parameter of the encoding. -/
structure IOScale where
  kIOScaleRotate0 : Nat
  kIOScaleRotate90 : Nat
  kIOScaleRotate180 : Nat
  kIOScaleRotate270 : Nat

/-! ## angle2options -/

/-- The table `anglebits` of `angle2options`: each entry is
`kIOFBSetTransform | (rotation) << 16`, stored as a 32-bit `IOOptionBits`. -/
def anglebits (k : IOScale) : List Nat :=
  [ (kIOFBSetTransform ||| (k.kIOScaleRotate0 <<< 16)) % 2 ^ 32,
    (kIOFBSetTransform ||| (k.kIOScaleRotate90 <<< 16)) % 2 ^ 32,
    (kIOFBSetTransform ||| (k.kIOScaleRotate180 <<< 16)) % 2 ^ 32,
    (kIOFBSetTransform ||| (k.kIOScaleRotate270 <<< 16)) % 2 ^ 32 ]

/-- The subscript `(angle / 90) % 4` of the second `return`, with C's
truncating division and remainder. -/
def angleIndex (angle : Int) : Int :=
  Int.tmod (Int.tdiv angle 90) 4

/-- A read `table[i]` of a C array with a signed subscript: defined only for
`0 ≤ i < length`. -/
def readAt (table : List Nat) (i : Int) : Option Nat :=
  if i < 0 then none else table[i.toNat]?

/-- The function `angle2options(long angle)`. -/
def angle2options (k : IOScale) (angle : Int) : Option Nat :=
  if Int.tmod angle 90 ≠ 0 then
    readAt (anglebits k) 0
  else
    readAt (anglebits k) (angleIndex angle)

/-! ## The window server and the effects of the program -/

/-- What the window server answers during one run of the program. Display
bounds are whole points and `CGDisplayRotation` is a whole number of degrees,
so the `double` results of those two queries are kept as integers. -/
structure Platform where
  /-- The result of `CGMainDisplayID()`. -/
  CGMainDisplayID : Nat
  /-- The error code returned by `CGGetOnlineDisplayList`. -/
  onlineErr : Int
  /-- The online displays, in the order the window server lists them. -/
  online : List Nat
  /-- The result of `CGDisplayIsBuiltin (dID)`. -/
  CGDisplayIsBuiltin : Nat → Bool
  /-- The result of `CGDisplayIsActive (dID)`. -/
  CGDisplayIsActive : Nat → Bool
  /-- The result of `CGDisplayRotation (dID)`, converted to `long`. -/
  CGDisplayRotation : Nat → Int
  /-- The result of `CGRectGetMinX (CGDisplayBounds (dID))`. -/
  minX : Nat → Int
  /-- The result of `CGRectGetMinY (CGDisplayBounds (dID))`. -/
  minY : Nat → Int
  /-- The result of `IOServiceRequestProbe` on the service port of a display
  with the given options. -/
  IOServiceRequestProbe : Nat → Nat → Int

/-- The diagnostics the program writes to `stderr`. -/
inductive Diag where
  | usage
  | onlineListError (dErr : Int)
  | noSuchDisplay (targetDisplay : Nat)
  | noMatchingId
  | noActiveExternal
  | probeError (dErr : Int)
  deriving DecidableEq, Repr

/-- The observable actions of the program, in the order they happen. -/
inductive Event where
  | stderr (d : Diag)
  | printList (onlineDisplays : List Nat)
  | printInfo (onlineDisplays : List Nat)
  | beginDisplayConfiguration
  | configureDisplayOrigin (dID : Nat) (x y : Int)
  | completeDisplayConfiguration
  | requestProbe (dID : Nat) (options : Nat)
  deriving DecidableEq, Repr

/-- How a run ends: `exit(status)` after the listed events, or a run whose
behaviour C leaves undefined (a read outside `anglebits`). -/
inductive Outcome where
  | exit (status : Nat) (events : List Event)
  | undefined
  deriving DecidableEq, Repr

/-- The rotation requests a run handed to the platform, as pairs of display
and transform option. -/
def Outcome.probes : Outcome → List (Nat × Nat)
  | .exit _ events =>
      events.filterMap fun e =>
        match e with
        | .requestProbe dID options => some (dID, options)
        | _ => none
  | .undefined => []

/-- The call `CGGetOnlineDisplayList(maxDisplays, onlineDisplays, &displayCount)`:
the error code and the first `maxDisplays` online displays. -/
def CGGetOnlineDisplayList (p : Platform) (maxDisplays : Nat) : Int × List Nat :=
  (p.onlineErr, p.online.take maxDisplays)

/-- The display snapshot of a run: what a successful enumeration stores in
`onlineDisplays[0 .. displayCount)`. -/
def snapshot (p : Platform) : List Nat :=
  (CGGetOnlineDisplayList p MAX_DISPLAYS).2

/-- The enumeration that opens every lookup: `exit(1)` with a diagnostic when
`CGGetOnlineDisplayList` reports an error, the array contents otherwise. -/
def enumerate (p : Platform) : Except Outcome (List Nat) :=
  let r := CGGetOnlineDisplayList p MAX_DISPLAYS
  if r.1 ≠ kCGErrorSuccess then
    throw (.exit 1 [.stderr (.onlineListError r.1)])
  else
    pure r.2

/-- The function `usage()`. -/
def usage : Outcome :=
  .exit 1 [.stderr .usage]

/-- The function `listDisplays()`; the table it prints is kept as one event. -/
def listDisplays (p : Platform) : Outcome :=
  match enumerate p with
  | .error o => o
  | .ok onlineDisplays => .exit 0 [.printList onlineDisplays]

/-- The function `infoDisplays()`; the table it prints is kept as one event. -/
def infoDisplays (p : Platform) : Outcome :=
  match enumerate p with
  | .error o => o
  | .ok onlineDisplays => .exit 0 [.printInfo onlineDisplays]

/-! ## setMainDisplay -/

/-- The first loop of `setMainDisplay`: `flag` becomes 1 when some entry of
`onlineDisplays` equals `targetDisplay`. -/
def setMainDisplay.flagLoop (targetDisplay : Nat) : List Nat → Int → Int
  | [], flag => flag
  | dID :: rest, flag =>
      setMainDisplay.flagLoop targetDisplay rest (if dID = targetDisplay then 1 else flag)

/-- The conversion of a whole `double` to a 32-bit `int` or `int32_t`: the
value itself when it is representable, and no defined result otherwise. -/
def toInt32 (x : Int) : Option Int :=
  if -2 ^ 31 ≤ x ∧ x < 2 ^ 31 then some x else none

/-- The pair `(deltaX, deltaY)` of `setMainDisplay`: the negated origin of the
target, each coordinate converted from `double` to `int`. -/
def setMainDisplay.delta (p : Platform) (targetDisplay : Nat) : Option (Int × Int) := do
  let deltaX ← toInt32 (-(p.minX targetDisplay))
  let deltaY ← toInt32 (-(p.minY targetDisplay))
  pure (deltaX, deltaY)

/-- The second loop of `setMainDisplay`: one `CGConfigureDisplayOrigin` per
entry of `onlineDisplays`, the two sums converted from `double` to the
`int32_t` parameters of the call. -/
def setMainDisplay.configureLoop (p : Platform) (deltaX deltaY : Int) :
    List Nat → Option (List Event)
  | [] => some []
  | dID :: rest => do
      let x ← toInt32 (p.minX dID + deltaX)
      let y ← toInt32 (p.minY dID + deltaY)
      let configured ← setMainDisplay.configureLoop p deltaX deltaY rest
      pure (.configureDisplayOrigin dID x y :: configured)

/-- The end of `setMainDisplay`, from the computation of the delta to the last
`exit(0)`: one layout transaction over `onlineDisplays`, or undefined
behaviour when a conversion to 32 bits has no result. -/
def setMainDisplay.transaction (p : Platform) (targetDisplay : Nat)
    (onlineDisplays : List Nat) : Outcome :=
  match setMainDisplay.delta p targetDisplay with
  | none => .undefined
  | some (deltaX, deltaY) =>
      match setMainDisplay.configureLoop p deltaX deltaY onlineDisplays with
      | none => .undefined
      | some configured =>
          .exit 0 (.beginDisplayConfiguration :: configured ++ [.completeDisplayConfiguration])

/-- The function `setMainDisplay(targetDisplay)`. -/
def setMainDisplay (p : Platform) (targetDisplay : Nat) : Outcome :=
  let mainDisplay := p.CGMainDisplayID
  if mainDisplay = targetDisplay then
    .exit 0 []
  else
    match enumerate p with
    | .error o => o
    | .ok onlineDisplays =>
        let flag := setMainDisplay.flagLoop targetDisplay onlineDisplays 0
        if flag = 0 then
          .exit 1 [.stderr (.noSuchDisplay targetDisplay)]
        else
          setMainDisplay.transaction p targetDisplay onlineDisplays

/-! ## The display lookups -/

/-- The loop of `InternalID`: the first built-in entry, `fallbackID` after the
last one. -/
def InternalID.loop (p : Platform) (fallbackID : Nat) : List Nat → Nat
  | [] => fallbackID
  | dID :: rest => if p.CGDisplayIsBuiltin dID then dID else InternalID.loop p fallbackID rest

/-- The function `InternalID()`. -/
def InternalID (p : Platform) : Except Outcome Nat := do
  let fallbackID := 0
  let onlineDisplays ← enumerate p
  pure (InternalID.loop p fallbackID onlineDisplays)

/-- The loop of `nonInternalID`: the first entry that is not built-in and is
active, `fallbackID` after the last one. -/
def nonInternalID.loop (p : Platform) (fallbackID : Nat) : List Nat → Nat
  | [] => fallbackID
  | dID :: rest =>
      if !(p.CGDisplayIsBuiltin dID) && p.CGDisplayIsActive dID then dID
      else nonInternalID.loop p fallbackID rest

/-- The function `nonInternalID()`. -/
def nonInternalID (p : Platform) : Except Outcome Nat := do
  let fallbackID := 0
  let onlineDisplays ← enumerate p
  pure (nonInternalID.loop p fallbackID onlineDisplays)

/-- The loop of `cgIDfromU32`: the first entry equal to `preId` (`postId` is a
copy of `preId`, so the four comparisons of the source are one), `none` after
the last one. -/
def cgIDfromU32.loop (preId : Nat) : List Nat → Option Nat
  | [] => none
  | dID :: rest =>
      let postId := preId
      if dID = preId ∨ dID = postId ∨ dID = preId ∨ dID = postId then some dID
      else cgIDfromU32.loop preId rest

/-- The function `cgIDfromU32(preId)`. -/
def cgIDfromU32 (p : Platform) (preId : Nat) : Except Outcome Nat := do
  let onlineDisplays ← enumerate p
  match cgIDfromU32.loop preId onlineDisplays with
  | some dID => pure dID
  | none => throw (.exit 1 [.stderr .noMatchingId])

/-! ## main -/

/-- One option as `getopt(argc, argv, "d:limr:")` delivers it. `d` carries the
`unsigned long` that `strtoul(optarg, NULL, 16)` returns, `r` the `long` that
`strtol(optarg, NULL, 10)` returns, `other` is any unknown option. -/
inductive Opt where
  | d (value : Nat)
  | l
  | i
  | m
  | r (value : Int)
  | other
  deriving DecidableEq, Repr

/-- The body of `case 'd'`: the cast of the `strtoul` result to
`CGDirectDisplayID`, followed by the three tests on `targetDisplay`, one
after the other. -/
def caseD (p : Platform) (value : Nat) : Except Outcome Nat := do
  let targetDisplay := value % 2 ^ 32
  let targetDisplay ←
    if targetDisplay = 2 ^ 32 - 1 then InternalID p else pure targetDisplay
  let targetDisplay :=
    if targetDisplay = 0 then p.CGMainDisplayID else targetDisplay
  if targetDisplay = 1 then
    let targetDisplay ← nonInternalID p
    if targetDisplay = 0 then
      throw (.exit 1 [.stderr .noActiveExternal])
    else
      pure targetDisplay
  else
    pure targetDisplay

/-- The `while ((i = getopt(...)) != -1)` loop of `main`, from the current
values of `targetDisplay` and `angle`. -/
def getoptLoop (p : Platform) : List Opt → Nat → Int → Except Outcome (Nat × Int)
  | [], targetDisplay, angle => pure (targetDisplay, angle)
  | .d value :: rest, _, angle => do
      let targetDisplay ← caseD p value
      getoptLoop p rest targetDisplay angle
  | .l :: _, _, _ => throw (listDisplays p)
  | .i :: _, _, _ => throw (infoDisplays p)
  | .m :: _, targetDisplay, _ => throw (setMainDisplay p targetDisplay)
  | .r value :: rest, targetDisplay, _ => getoptLoop p rest targetDisplay value
  | .other :: rest, targetDisplay, angle => getoptLoop p rest targetDisplay angle

/-- The part of `main` after the option loop: the test for a missing target,
the toggle, the encoding and the rotation request. -/
def rotate (k : IOScale) (p : Platform) (targetDisplay : Nat) (angle : Int) : Outcome :=
  if targetDisplay = 0 then
    usage
  else
    let angle :=
      if angle = 1 then
        let currentRotation := p.CGDisplayRotation targetDisplay
        if currentRotation = 0 then 90 else 0
      else angle
    match angle2options k angle with
    | none => .undefined
    | some options =>
        match cgIDfromU32 p targetDisplay with
        | .error o => o
        | .ok td2 =>
            let dErr := p.IOServiceRequestProbe td2 options
            if dErr ≠ kCGErrorSuccess then
              .exit 1 [.requestProbe td2 options, .stderr (.probeError dErr)]
            else
              .exit 0 [.requestProbe td2 options]

/-- The function `main`, on the options `getopt` delivers. -/
def main (k : IOScale) (p : Platform) (argv : List Opt) : Outcome :=
  match getoptLoop p argv 0 0 with
  | .error o => o
  | .ok (targetDisplay, angle) => rotate k p targetDisplay angle

/-! ## Vocabulary of the statements -/

/-- The entry `r` is the first one of `l`, in order, on which `P` holds: `l`
splits into entries on which `P` fails, then `r`, then the rest. -/
def IsFirst (P : Nat → Bool) (l : List Nat) (r : Nat) : Prop :=
  ∃ pre post, l = pre ++ r :: post ∧ P r = true ∧ ∀ d ∈ pre, P d = false

/-- The events of a run that ends in `exit`; none are recorded for a run with
undefined behaviour. -/
def Outcome.events : Outcome → List Event
  | .exit _ events => events
  | .undefined => []

/-- The origins a run configured, as triples of display, x and y, in the order
of the `CGConfigureDisplayOrigin` calls. -/
def Outcome.origins : Outcome → List (Nat × Int × Int)
  | .exit _ events =>
      events.filterMap fun e =>
        match e with
        | .configureDisplayOrigin dID x y => some (dID, x, y)
        | _ => none
  | .undefined => []

/-- The value is representable in a 32-bit `int`. -/
@[reducible] def FitsInt32 (x : Int) : Prop :=
  -2 ^ 31 ≤ x ∧ x < 2 ^ 31

/-- The layout can be moved onto the target within 32-bit integers: the
negated origin of the target, and the offset of every display of the snapshot
from the target, are representable in a 32-bit `int`. -/
def Reanchorable (p : Platform) (targetDisplay : Nat) : Prop :=
  FitsInt32 (-(p.minX targetDisplay)) ∧ FitsInt32 (-(p.minY targetDisplay)) ∧
  ∀ r ∈ snapshot p,
    FitsInt32 (p.minX r - p.minX targetDisplay) ∧ FitsInt32 (p.minY r - p.minY targetDisplay)

/-- The window server with the origin of one display replaced. -/
def Platform.setOrigin (p : Platform) (dID : Nat) (x y : Int) : Platform :=
  { p with
    minX := fun d => if d = dID then x else p.minX d
    minY := fun d => if d = dID then y else p.minY d }

/-- The window server after the origins configured by a list of events are
applied, one `CGConfigureDisplayOrigin` after the other; the other events
leave the origins alone. -/
def applyOrigins (p : Platform) : List Event → Platform
  | [] => p
  | .configureDisplayOrigin dID x y :: rest => applyOrigins (p.setOrigin dID x y) rest
  | _ :: rest => applyOrigins p rest

/-- The window server after the layout transaction of a run is committed: the
origins the run configured are applied, and `mainAfter` is the display the
window server then reports as main. -/
def commitLayout (p : Platform) (o : Outcome) (mainAfter : Nat) : Platform :=
  { applyOrigins p o.events with CGMainDisplayID := mainAfter }

/-- The option is a `-d`. -/
def Opt.isD : Opt → Bool
  | .d _ => true
  | _ => false

/-- The option is a `-d` or an option `getopt` does not know: it is none of
`-l`, `-i`, `-m` and `-r`. -/
def Opt.selectsOnly : Opt → Bool
  | .d _ => true
  | .other => true
  | _ => false

/-- The event belongs to a layout transaction. -/
def Event.isLayout : Event → Bool
  | .beginDisplayConfiguration => true
  | .configureDisplayOrigin _ _ _ => true
  | .completeDisplayConfiguration => true
  | _ => false

/-- The event is a rotation request. -/
def Event.isProbe : Event → Bool
  | .requestProbe _ _ => true
  | _ => false

/-! ## Sample inputs -/

/-- The values the rotation enumerators have in `IOGraphicsTypes.h`. -/
def sampleScale : IOScale :=
  { kIOScaleRotate0 := 0, kIOScaleRotate90 := 3, kIOScaleRotate180 := 6, kIOScaleRotate270 := 5 }

/-- A built-in main display `0x100` at the origin and an external display
`0x200` to its right, both active and unrotated. -/
def twoDisplays : Platform :=
  { CGMainDisplayID := 0x100
    onlineErr := 0
    online := [0x100, 0x200]
    CGDisplayIsBuiltin := fun dID => dID == 0x100
    CGDisplayIsActive := fun _ => true
    CGDisplayRotation := fun _ => 0
    minX := fun dID => if dID = 0x200 then 1920 else 0
    minY := fun _ => 0
    IOServiceRequestProbe := fun _ _ => 0 }

/-- A built-in main display with identifier `1` and an external display with
identifier `2`, both active. -/
def smallIds : Platform :=
  { twoDisplays with
    CGMainDisplayID := 1
    online := [1, 2]
    CGDisplayIsBuiltin := fun dID => dID == 1
    minX := fun dID => if dID = 2 then 1920 else 0 }

/-- A lone built-in main display with identifier `1`. -/
def onlyBuiltin : Platform :=
  { smallIds with online := [1] }

/-- Two external displays `0x200` (main) and `0x300`, no built-in one. -/
def noBuiltin : Platform :=
  { twoDisplays with
    CGMainDisplayID := 0x200
    online := [0x200, 0x300]
    CGDisplayIsBuiltin := fun _ => false
    minX := fun dID => if dID = 0x300 then 1920 else 0 }

/-- The two displays of `twoDisplays` four thousand million points apart:
`0x100` at x = -2000000000 and `0x200` at x = 2000000000, both origins being
32-bit values. -/
def wideLayout : Platform :=
  { twoDisplays with minX := fun dID => if dID = 0x200 then 2000000000 else -2000000000 }

/-- The two displays of `twoDisplays` with `0x200` at x = 3000000000, beyond
the 32-bit range. -/
def farTarget : Platform :=
  { twoDisplays with minX := fun dID => if dID = 0x200 then 3000000000 else 0 }

/-- The two displays of `twoDisplays` while the window server reports a main
display `0x300` that is not among the online displays. -/
def absentMain : Platform :=
  { twoDisplays with CGMainDisplayID := 0x300 }

/-! # Theorems -/

/-! ## Truncating division -/

/-- C's quotient in terms of the floor quotient `omega` understands. -/
theorem tdiv_eq_ite (a b : Int) (hb : 0 ≤ b) :
    Int.tdiv a b = if 0 ≤ a then a / b else -((-a) / b) := by
  split
  · next h => exact Int.tdiv_eq_ediv h hb
  · next h =>
    have h1 : Int.tdiv (-(-a)) b = -(Int.tdiv (-a) b) := Int.neg_tdiv (-a) b
    rw [Int.neg_neg] at h1
    rw [h1, Int.tdiv_eq_ediv (by omega) hb]

/-- C's remainder in terms of the floor quotient. -/
theorem tmod_eq_ite (a b : Int) (hb : 0 ≤ b) :
    Int.tmod a b = if 0 ≤ a then a - b * (a / b) else a + b * ((-a) / b) := by
  rw [Int.tmod_def, tdiv_eq_ite a b hb]
  split
  · rfl
  · rw [Int.mul_neg, Int.sub_neg]

/-- The test `(angle % 90) != 0` of `angle2options` holds exactly for the
angles that are not multiples of 90, whatever their sign. -/
theorem tmod_ninety_ne_zero_iff (a : Int) : Int.tmod a 90 ≠ 0 ↔ a % 90 ≠ 0 := by
  rw [tmod_eq_ite a 90 (by decide)]
  split <;> omega

/-- The subscript of `angle2options` in terms of floor quotients. -/
theorem angleIndex_eq_ite (a : Int) :
    angleIndex a =
      if 0 ≤ a then (a / 90) - 4 * ((a / 90) / 4)
      else -((-a) / 90) + 4 * (((-a) / 90) / 4) := by
  unfold angleIndex
  rw [tdiv_eq_ite a 90 (by decide), tmod_eq_ite _ 4 (by decide)]
  split
  · next h =>
    have : 0 ≤ a / 90 := by omega
    simp [this]
  · next h =>
    by_cases h0 : (-a) / 90 = 0
    · simp [h0]
    · have : ¬ (0 ≤ -((-a) / 90)) := by omega
      simp [this]

/-- The subscript is never 4 or more. -/
theorem angleIndex_lt_four (a : Int) : angleIndex a < 4 := by
  rw [angleIndex_eq_ite]
  split <;> omega

/-- The subscript is in range for every angle that is not negative. -/
theorem angleIndex_nonneg (a : Int) (h : 0 ≤ a) : 0 ≤ angleIndex a := by
  rw [angleIndex_eq_ite]
  split <;> omega

/-- The entry of `anglebits` for quadrant 0. -/
theorem readAt_anglebits_zero (k : IOScale) :
    readAt (anglebits k) 0 =
      some ((kIOFBSetTransform ||| (k.kIOScaleRotate0 <<< 16)) % 2 ^ 32) := by
  simp [readAt, anglebits]

/-- The result at angle 0 is the rotation-reset entry. -/
theorem angle2options_zero (k : IOScale) :
    angle2options k 0 =
      some ((kIOFBSetTransform ||| (k.kIOScaleRotate0 <<< 16)) % 2 ^ 32) := by
  have h0 : Int.tmod 0 90 = 0 := by decide
  have h1 : angleIndex 0 = 0 := by decide
  simp [angle2options, h0, h1, readAt_anglebits_zero]

/-- The result at angle 90 is the quarter-turn entry. -/
theorem angle2options_ninety (k : IOScale) :
    angle2options k 90 =
      some ((kIOFBSetTransform ||| (k.kIOScaleRotate90 <<< 16)) % 2 ^ 32) := by
  have h0 : Int.tmod 90 90 = 0 := by decide
  have h1 : angleIndex 90 = 1 := by decide
  simp [angle2options, h0, h1, readAt, anglebits]

/-- The read of `anglebits` is outside the table exactly for the negative
multiples of 90 that are not multiples of 360. -/
theorem angle2options_eq_none_iff (k : IOScale) (a : Int) :
    angle2options k a = none ↔ a < 0 ∧ a % 90 = 0 ∧ a % 360 ≠ 0 := by
  unfold angle2options
  by_cases h : Int.tmod a 90 ≠ 0
  · have h2 := (tmod_ninety_ne_zero_iff a).1 h
    rw [if_pos h, readAt_anglebits_zero]
    constructor
    · intro hc; exact absurd hc (by simp)
    · rintro ⟨_, h3, _⟩; exact absurd h3 h2
  · have h2 : a % 90 = 0 := by
      by_contra hc
      exact h ((tmod_ninety_ne_zero_iff a).2 hc)
    rw [if_neg h]
    have hlt := angleIndex_lt_four a
    have hidx := angleIndex_eq_ite a
    unfold readAt
    by_cases hneg : angleIndex a < 0
    · rw [if_pos hneg]
      simp only [true_iff]
      split at hidx <;> omega
    · rw [if_neg hneg]
      have hlen : (angleIndex a).toNat < (anglebits k).length := by
        simp only [anglebits, List.length_cons, List.length_nil]
        omega
      constructor
      · intro hc
        rw [List.getElem?_eq_none_iff] at hc
        omega
      · rintro ⟨h3, _, h5⟩
        exfalso
        split at hidx <;> omega

/-! ## The enumeration and the lookup loops -/

/-- A successful enumeration yields the snapshot. -/
theorem enumerate_ok (p : Platform) (herr : p.onlineErr = kCGErrorSuccess) :
    enumerate p = .ok (snapshot p) := by
  simp [enumerate, snapshot, CGGetOnlineDisplayList, herr, pure, Except.pure]

/-- A failed enumeration ends the program with status 1. -/
theorem enumerate_error (p : Platform) (herr : p.onlineErr ≠ kCGErrorSuccess) :
    enumerate p = .error (.exit 1 [.stderr (.onlineListError p.onlineErr)]) := by
  simp [enumerate, CGGetOnlineDisplayList, herr, throw, throwThe, MonadExceptOf.throw]

/-- The loop of `cgIDfromU32` finds `preId` when it is among the entries. -/
theorem cgIDfromU32_loop_of_mem (preId : Nat) (l : List Nat) (h : preId ∈ l) :
    cgIDfromU32.loop preId l = some preId := by
  induction l with
  | nil => simp at h
  | cons dID rest ih =>
    by_cases hd : dID = preId
    · simp [cgIDfromU32.loop, hd]
    · have hr : preId ∈ rest := by
        rcases List.mem_cons.1 h with h1 | h1
        · exact absurd h1.symm hd
        · exact h1
      simp [cgIDfromU32.loop, hd, ih hr]

/-- The loop of `cgIDfromU32` finds nothing when `preId` is not an entry. -/
theorem cgIDfromU32_loop_of_not_mem (preId : Nat) (l : List Nat) (h : preId ∉ l) :
    cgIDfromU32.loop preId l = none := by
  induction l with
  | nil => rfl
  | cons dID rest ih =>
    have hd : dID ≠ preId := fun hc => h (by simp [hc])
    have hr : preId ∉ rest := fun hc => h (List.mem_cons_of_mem _ hc)
    simp [cgIDfromU32.loop, hd, ih hr]

/-- Every result of `cgIDfromU32`. -/
theorem cgIDfromU32_eq (p : Platform) (preId : Nat) :
    cgIDfromU32 p preId =
      if p.onlineErr ≠ kCGErrorSuccess then
        .error (.exit 1 [.stderr (.onlineListError p.onlineErr)])
      else if preId ∈ snapshot p then .ok preId
      else .error (.exit 1 [.stderr .noMatchingId]) := by
  unfold cgIDfromU32
  by_cases herr : p.onlineErr ≠ kCGErrorSuccess
  · rw [if_pos herr, enumerate_error p herr]
    rfl
  · rw [if_neg herr, enumerate_ok p (by simpa using herr)]
    by_cases hm : preId ∈ snapshot p
    · rw [if_pos hm]
      simp [bind, Except.bind, cgIDfromU32_loop_of_mem preId _ hm, pure, Except.pure]
    · rw [if_neg hm]
      simp [bind, Except.bind, cgIDfromU32_loop_of_not_mem preId _ hm, throw, throwThe,
        MonadExceptOf.throw]

/-- The loop of `nonInternalID` returns the first external active entry. -/
theorem nonInternalID_loop_first (p : Platform) (fallbackID r : Nat) (l : List Nat)
    (h : IsFirst (fun d => !(p.CGDisplayIsBuiltin d) && p.CGDisplayIsActive d) l r) :
    nonInternalID.loop p fallbackID l = r := by
  obtain ⟨pre, post, hl, hr, hpre⟩ := h
  subst hl
  induction pre with
  | nil => simp only [List.nil_append, nonInternalID.loop]; rw [if_pos hr]
  | cons d pre ih =>
    have hd := hpre d (by simp)
    simp only [List.cons_append, nonInternalID.loop]
    rw [if_neg (by simpa using hd)]
    exact ih (fun x hx => hpre x (List.mem_cons_of_mem _ hx))

/-- The loop of `nonInternalID` returns the fallback when no entry is external
and active. -/
theorem nonInternalID_loop_none (p : Platform) (fallbackID : Nat) (l : List Nat)
    (h : ∀ d ∈ l, (!(p.CGDisplayIsBuiltin d) && p.CGDisplayIsActive d) = false) :
    nonInternalID.loop p fallbackID l = fallbackID := by
  induction l with
  | nil => rfl
  | cons d rest ih =>
    have hd := h d (by simp)
    simp only [nonInternalID.loop]
    rw [if_neg (by simpa using hd)]
    exact ih (fun x hx => h x (List.mem_cons_of_mem _ hx))

/-- The loop of `InternalID` returns the first built-in entry. -/
theorem InternalID_loop_first (p : Platform) (fallbackID r : Nat) (l : List Nat)
    (h : IsFirst p.CGDisplayIsBuiltin l r) :
    InternalID.loop p fallbackID l = r := by
  obtain ⟨pre, post, hl, hr, hpre⟩ := h
  subst hl
  induction pre with
  | nil => simp only [List.nil_append, InternalID.loop]; rw [if_pos hr]
  | cons d pre ih =>
    have hd := hpre d (by simp)
    simp only [List.cons_append, InternalID.loop]
    rw [if_neg (by simp [hd])]
    exact ih (fun x hx => hpre x (List.mem_cons_of_mem _ hx))

/-- The loop of `InternalID` returns the fallback when no entry is built-in. -/
theorem InternalID_loop_none (p : Platform) (fallbackID : Nat) (l : List Nat)
    (h : ∀ d ∈ l, p.CGDisplayIsBuiltin d = false) :
    InternalID.loop p fallbackID l = fallbackID := by
  induction l with
  | nil => rfl
  | cons d rest ih =>
    have hd := h d (by simp)
    simp only [InternalID.loop]
    rw [if_neg (by simp [hd])]
    exact ih (fun x hx => h x (List.mem_cons_of_mem _ hx))

/-- The first entry on which `P` holds is an entry. -/
theorem IsFirst.mem {P : Nat → Bool} {l : List Nat} {r : Nat} (h : IsFirst P l r) : r ∈ l := by
  obtain ⟨pre, post, hl, _, _⟩ := h
  simp [hl]

/-! ## The rotation step -/

/-- With the toggle sentinel the rotation step runs as with angle 90 on an
unrotated target and as with angle 0 on a rotated one. -/
theorem rotate_toggle (k : IOScale) (p : Platform) (targetDisplay : Nat) :
    rotate k p targetDisplay 1 =
      rotate k p targetDisplay (if p.CGDisplayRotation targetDisplay = 0 then 90 else 0) := by
  unfold rotate
  by_cases h : p.CGDisplayRotation targetDisplay = 0 <;> simp [h]

/-- The rotation step for a selected target and an angle that is not the
toggle sentinel and has an encoding. -/
theorem rotate_of_some (k : IOScale) (p : Platform) (targetDisplay : Nat) (angle : Int)
    (options : Nat) (ht : targetDisplay ≠ 0) (ha : angle ≠ 1)
    (ho : angle2options k angle = some options) :
    rotate k p targetDisplay angle =
      if p.onlineErr ≠ kCGErrorSuccess then
        .exit 1 [.stderr (.onlineListError p.onlineErr)]
      else if targetDisplay ∈ snapshot p then
        if p.IOServiceRequestProbe targetDisplay options ≠ kCGErrorSuccess then
          .exit 1 [.requestProbe targetDisplay options,
            .stderr (.probeError (p.IOServiceRequestProbe targetDisplay options))]
        else
          .exit 0 [.requestProbe targetDisplay options]
      else .exit 1 [.stderr .noMatchingId] := by
  unfold rotate
  rw [if_neg ht]
  simp only [if_neg ha, ho, cgIDfromU32_eq]
  by_cases herr : p.onlineErr ≠ kCGErrorSuccess
  · simp only [if_pos herr]
  · simp only [if_neg herr]
    by_cases hm : targetDisplay ∈ snapshot p
    · simp only [if_pos hm]
    · simp only [if_neg hm]

/-- Every rotation request of the rotation step names the target and carries
the encoding of the angle. -/
theorem rotate_probes_mem (k : IOScale) (p : Platform) (targetDisplay : Nat) (angle : Int)
    (ha : angle ≠ 1) (dID options : Nat)
    (h : (dID, options) ∈ (rotate k p targetDisplay angle).probes) :
    dID = targetDisplay ∧ some options = angle2options k angle := by
  by_cases ht : targetDisplay = 0
  · simp [rotate, ht, usage, Outcome.probes] at h
  · cases ho : angle2options k angle with
    | none => simp [rotate, ht, ha, ho, Outcome.probes] at h
    | some o =>
      rw [rotate_of_some k p targetDisplay angle o ht ha ho] at h
      split at h
      · simp [Outcome.probes] at h
      · split at h
        · split at h <;> simp [Outcome.probes] at h <;> simp [h]
        · simp [Outcome.probes] at h

/-- The rotation step issues exactly one request when the enumeration
succeeds and the target is in the snapshot. -/
theorem rotate_probes_eq (k : IOScale) (p : Platform) (targetDisplay : Nat) (angle : Int)
    (options : Nat) (ht : targetDisplay ≠ 0) (ha : angle ≠ 1)
    (ho : angle2options k angle = some options)
    (herr : p.onlineErr = kCGErrorSuccess) (hm : targetDisplay ∈ snapshot p) :
    (rotate k p targetDisplay angle).probes = [(targetDisplay, options)] := by
  rw [rotate_of_some k p targetDisplay angle options ht ha ho]
  rw [if_neg (by simp [herr]), if_pos hm]
  split <;> simp [Outcome.probes]

/-! ## The option `-d` -/

/-- The function `InternalID` after a successful enumeration. -/
theorem InternalID_eq (p : Platform) (herr : p.onlineErr = kCGErrorSuccess) :
    InternalID p = .ok (InternalID.loop p 0 (snapshot p)) := by
  simp [InternalID, enumerate_ok p herr, bind, Except.bind, pure, Except.pure]

/-- The function `nonInternalID` after a successful enumeration. -/
theorem nonInternalID_eq (p : Platform) (herr : p.onlineErr = kCGErrorSuccess) :
    nonInternalID p = .ok (nonInternalID.loop p 0 (snapshot p)) := by
  simp [nonInternalID, enumerate_ok p herr, bind, Except.bind, pure, Except.pure]

/-- The option `-d` with a value that is none of the three sentinels selects
that value. -/
theorem caseD_raw (p : Platform) (v : Nat) (hv : v < 2 ^ 32) (h0 : v ≠ 0) (h1 : v ≠ 1)
    (hm : v ≠ 2 ^ 32 - 1) : caseD p v = .ok v := by
  have hmod : v % 4294967296 = v := Nat.mod_eq_of_lt (by simpa using hv)
  have hm2 : v ≠ 4294967295 := by simpa using hm
  simp [caseD, hmod, hm2, h0, h1, bind, Except.bind, pure, Except.pure]

/-- The option `-d 1` after a successful enumeration: the result of the loop of
`nonInternalID`, or the end of the program when that is 0. -/
theorem caseD_one (p : Platform) (herr : p.onlineErr = kCGErrorSuccess) :
    caseD p 1 =
      if nonInternalID.loop p 0 (snapshot p) = 0 then
        .error (.exit 1 [.stderr .noActiveExternal])
      else .ok (nonInternalID.loop p 0 (snapshot p)) := by
  simp only [caseD, nonInternalID_eq p herr]
  split <;> simp_all [bind, Except.bind, pure, Except.pure, throw, throwThe, MonadExceptOf.throw]

/-! ## The claims about `angle2options` -/

/-- C1 (the code misses negative angles): the angle -90 is a multiple of 90
whose normalised angle is 270, yet `angle2options(-90)` computes the
subscript -1 and reads outside `anglebits` instead of returning the entry for
Rotate270, which the angle 270 does return. -/
theorem angle2options_neg_ninety_not_rotate270 (k : IOScale) :
    (-90 : Int) % 360 = 270 ∧
    angle2options k 270 =
      some ((kIOFBSetTransform ||| (k.kIOScaleRotate270 <<< 16)) % 2 ^ 32) ∧
    angleIndex (-90) = -1 ∧
    angle2options k (-90) = none := by
  have h0 : Int.tmod 270 90 = 0 := by decide
  have h1 : angleIndex 270 = 3 := by decide
  refine ⟨by decide, ?_, by decide, ?_⟩
  · simp [angle2options, h0, h1, readAt, anglebits]
  · exact (angle2options_eq_none_iff k (-90)).2 (by decide)

/-- C2: for every angle that is not a multiple of 90, of either sign,
`angle2options` returns what it returns for angle 0, the rotation-reset entry
`kIOFBSetTransform | (kIOScaleRotate0 << 16)`. -/
theorem angle2options_non_multiple_resets (k : IOScale) (a : Int) (h : a % 90 ≠ 0) :
    angle2options k a = angle2options k 0 ∧
    angle2options k a =
      some ((kIOFBSetTransform ||| (k.kIOScaleRotate0 <<< 16)) % 2 ^ 32) := by
  have ha : angle2options k a =
      some ((kIOFBSetTransform ||| (k.kIOScaleRotate0 <<< 16)) % 2 ^ 32) := by
    unfold angle2options
    rw [if_pos ((tmod_ninety_ne_zero_iff a).2 h), readAt_anglebits_zero]
  exact ⟨by rw [ha, angle2options_zero], ha⟩

/-- Witness of C2 at the negative angle -45. -/
theorem angle2options_non_multiple_resets_witness :
    (-45 : Int) % 90 ≠ 0 ∧
    angle2options sampleScale (-45) = angle2options sampleScale 0 ∧
    angle2options sampleScale (-45) = some 0x400 :=
  ⟨by decide, angle2options_non_multiple_resets sampleScale (-45) (by decide)⟩

/-- C4 (the code misses negative angles): the encoding is not periodic at
-270, where `angle2options(-270 + 360)` is the Rotate90 entry while
`angle2options(-270)` reads `anglebits[-3]`, outside the table. -/
theorem angle2options_not_periodic_at_neg_270 (k : IOScale) :
    angle2options k (-270 + 360) =
      some ((kIOFBSetTransform ||| (k.kIOScaleRotate90 <<< 16)) % 2 ^ 32) ∧
    angleIndex (-270) = -3 ∧
    angle2options k (-270) = none ∧
    angle2options k (-270 + 360) ≠ angle2options k (-270) := by
  have h90 : angle2options k (-270 + 360) =
      some ((kIOFBSetTransform ||| (k.kIOScaleRotate90 <<< 16)) % 2 ^ 32) :=
    angle2options_ninety k
  have hnone : angle2options k (-270) = none :=
    (angle2options_eq_none_iff k (-270)).2 (by decide)
  refine ⟨h90, by decide, hnone, ?_⟩
  rw [h90, hnone]
  simp

/-- C5 (the code misses negative angles): for the angle -180 the subscript
`(angle / 90) % 4` is -2, which is not in 0..3, and the lookup of
`angle2options` falls outside the four entries of `anglebits`. -/
theorem angleIndex_neg_180_out_of_range (k : IOScale) :
    Int.tmod (-180) 90 = 0 ∧
    angleIndex (-180) = -2 ∧
    ¬ (0 ≤ angleIndex (-180)) ∧
    angle2options k (-180) = none ∧
    angle2options k (-180) ∉ (anglebits k).map some := by
  have hnone : angle2options k (-180) = none :=
    (angle2options_eq_none_iff k (-180)).2 (by decide)
  refine ⟨by decide, by decide, by decide, hnone, ?_⟩
  rw [hnone]
  simp

/-! ## The toggle -/

/-- C3: when the option loop ends with the toggle sentinel 1 as angle, every
rotation request of the run carries `angle2options(90)` if the current
rotation of the target is 0 and `angle2options(0)` if it is anything else; and
a run whose target is in the snapshot issues exactly one request, on the
target, with that option. -/
theorem toggle_two_state (k : IOScale) (p : Platform) (argv : List Opt) (targetDisplay : Nat)
    (hloop : getoptLoop p argv 0 0 = .ok (targetDisplay, 1)) :
    (∀ dID options, (dID, options) ∈ (main k p argv).probes →
      (p.CGDisplayRotation targetDisplay = 0 → some options = angle2options k 90) ∧
      (p.CGDisplayRotation targetDisplay ≠ 0 → some options = angle2options k 0)) ∧
    (targetDisplay ≠ 0 → p.onlineErr = kCGErrorSuccess → targetDisplay ∈ snapshot p →
      ∃ options, (main k p argv).probes = [(targetDisplay, options)] ∧
        (p.CGDisplayRotation targetDisplay = 0 → angle2options k 90 = some options) ∧
        (p.CGDisplayRotation targetDisplay ≠ 0 → angle2options k 0 = some options)) := by
  have hmain : main k p argv =
      rotate k p targetDisplay (if p.CGDisplayRotation targetDisplay = 0 then 90 else 0) := by
    simp only [main, hloop]
    exact rotate_toggle k p targetDisplay
  rw [hmain]
  by_cases hr : p.CGDisplayRotation targetDisplay = 0
  · rw [if_pos hr]
    constructor
    · intro dID options h
      have := rotate_probes_mem k p targetDisplay 90 (by decide) dID options h
      exact ⟨fun _ => this.2, fun hc => absurd hr hc⟩
    · intro ht herr hm
      exact ⟨_, rotate_probes_eq k p targetDisplay 90 _ ht (by decide) (angle2options_ninety k)
        herr hm, fun _ => angle2options_ninety k, fun hc => absurd hr hc⟩
  · rw [if_neg hr]
    constructor
    · intro dID options h
      have := rotate_probes_mem k p targetDisplay 0 (by decide) dID options h
      exact ⟨fun hc => absurd hc hr, fun _ => this.2⟩
    · intro ht herr hm
      exact ⟨_, rotate_probes_eq k p targetDisplay 0 _ ht (by decide) (angle2options_zero k)
        herr hm, fun hc => absurd hc hr, fun _ => angle2options_zero k⟩

/-- Witness of C3: `-d 200 -r 1` on the unrotated external display of
`twoDisplays` requests the quarter turn. -/
theorem toggle_two_state_witness :
    getoptLoop twoDisplays [.d 0x200, .r 1] 0 0 = .ok (0x200, 1) ∧
    ∃ options, (main sampleScale twoDisplays [.d 0x200, .r 1]).probes = [(0x200, options)] ∧
      (twoDisplays.CGDisplayRotation 0x200 = 0 → angle2options sampleScale 90 = some options) ∧
      (twoDisplays.CGDisplayRotation 0x200 ≠ 0 → angle2options sampleScale 0 = some options) :=
  ⟨rfl, (toggle_two_state sampleScale twoDisplays [.d 0x200, .r 1] 0x200 rfl).2
    (by decide) rfl (by decide)⟩

/-! ## The claims about the option `-d` -/

/-- C6: after a successful enumeration of a snapshot of real displays
(identifiers not 0), `-d 1` selects the first entry of the snapshot, in order,
that is not built-in and is active; when the snapshot has no such entry the
option ends the program with status 1 and the diagnostic for a missing
external display, and so does every command line that starts with `-d 1`. -/
theorem firstExternal_resolution (p : Platform) (herr : p.onlineErr = kCGErrorSuccess)
    (hid : ∀ d ∈ snapshot p, d ≠ 0) :
    (∀ r, IsFirst (fun d => !(p.CGDisplayIsBuiltin d) && p.CGDisplayIsActive d) (snapshot p) r →
      caseD p 1 = .ok r) ∧
    ((∀ d ∈ snapshot p, (!(p.CGDisplayIsBuiltin d) && p.CGDisplayIsActive d) = false) →
      caseD p 1 = .error (.exit 1 [.stderr .noActiveExternal]) ∧
      ∀ k rest, main k p (.d 1 :: rest) = .exit 1 [.stderr .noActiveExternal]) := by
  constructor
  · intro r hr
    have hne : r ≠ 0 := hid r hr.mem
    rw [caseD_one p herr, nonInternalID_loop_first p 0 r _ hr, if_neg hne]
  · intro hnone
    have hc : caseD p 1 = .error (.exit 1 [.stderr .noActiveExternal]) := by
      rw [caseD_one p herr, nonInternalID_loop_none p 0 _ hnone, if_pos rfl]
    refine ⟨hc, ?_⟩
    intro k rest
    simp [main, getoptLoop, hc, bind, Except.bind]

/-- Witness of C6: in the snapshot of a built-in `0x100` and an external
`0x200`, `-d 1` selects `0x200`. -/
theorem firstExternal_resolution_witness :
    twoDisplays.onlineErr = kCGErrorSuccess ∧
    (∀ d ∈ snapshot twoDisplays, d ≠ 0) ∧
    snapshot twoDisplays = [0x100, 0x200] ∧
    caseD twoDisplays 1 = .ok 0x200 :=
  ⟨rfl, by decide, rfl,
    (firstExternal_resolution twoDisplays rfl (by decide)).1 0x200
      ⟨[0x100], [], rfl, rfl, by decide⟩⟩

/-- C7 (the tests of `case 'd'` are not exclusive): in the snapshot of a
built-in display 1 and an external display 2, `InternalID` returns the first
built-in identifier 1, the following test `targetDisplay == 1` takes it for the
first-external sentinel, and `-d -1` selects the external display 2. -/
theorem internal_small_id_selects_external :
    snapshot smallIds = [1, 2] ∧
    IsFirst smallIds.CGDisplayIsBuiltin (snapshot smallIds) 1 ∧
    InternalID smallIds = .ok 1 ∧
    caseD smallIds (2 ^ 64 - 1) = .ok 2 ∧
    main sampleScale smallIds [.d (2 ^ 64 - 1), .r 90] = .exit 0 [.requestProbe 2 0x30400] :=
  ⟨rfl, ⟨[], [2], rfl, rfl, by simp⟩, rfl, rfl, by decide⟩

/-- C8 (the fallback of `InternalID` is not checked): in a snapshot without a
built-in display `InternalID` returns the fallback identifier 0, the following
test `targetDisplay == 0` replaces it by the main display, and `-d -1 -r 90`
rotates the main display with exit status 0. -/
theorem internal_missing_selects_main :
    snapshot noBuiltin = [0x200, 0x300] ∧
    (∀ d ∈ snapshot noBuiltin, noBuiltin.CGDisplayIsBuiltin d = false) ∧
    InternalID noBuiltin = .ok 0 ∧
    caseD noBuiltin (2 ^ 64 - 1) = .ok noBuiltin.CGMainDisplayID ∧
    main sampleScale noBuiltin [.d (2 ^ 64 - 1), .r 90] =
      .exit 0 [.requestProbe noBuiltin.CGMainDisplayID 0x30400] :=
  ⟨rfl, by decide, rfl, rfl, by decide⟩

/-- C9 (the tests of `case 'd'` are not exclusive): when the main display has
identifier 1, the test `targetDisplay == 1` takes the main identifier for the
first-external sentinel; `-d 0` then selects the external display 2, and ends
the program with status 1 when the main display is the only one. -/
theorem main_token_with_main_id_one :
    smallIds.CGMainDisplayID = 1 ∧
    caseD smallIds 0 = .ok 2 ∧
    onlyBuiltin.CGMainDisplayID = 1 ∧
    snapshot onlyBuiltin = [1] ∧
    caseD onlyBuiltin 0 = .error (.exit 1 [.stderr .noActiveExternal]) :=
  ⟨rfl, rfl, rfl, rfl, rfl⟩

/-- C10: a 32-bit value `v` other than the sentinels 0, 1 and `0xFFFFFFFF` is
selected by `-d` as it is; after a successful enumeration `cgIDfromU32(v)`
returns `v` when `v` is in the snapshot and ends the program with status 1
when it is not, so the command line `-d v` requests a rotation of `v` in the
first case and fails in the second; the lookup of `setMainDisplay` fails in
the same way for an absent `v`. -/
theorem rawId_resolution (k : IOScale) (p : Platform) (v : Nat) (hv : v < 2 ^ 32)
    (h0 : v ≠ 0) (h1 : v ≠ 1) (hm : v ≠ 2 ^ 32 - 1) (herr : p.onlineErr = kCGErrorSuccess) :
    caseD p v = .ok v ∧
    (v ∈ snapshot p →
      cgIDfromU32 p v = .ok v ∧
      ∃ options, angle2options k 0 = some options ∧ (main k p [.d v]).probes = [(v, options)]) ∧
    (v ∉ snapshot p →
      cgIDfromU32 p v = .error (.exit 1 [.stderr .noMatchingId]) ∧
      main k p [.d v] = .exit 1 [.stderr .noMatchingId] ∧
      (p.CGMainDisplayID ≠ v →
        setMainDisplay p v = .exit 1 [.stderr (.noSuchDisplay v)])) := by
  have hd := caseD_raw p v hv h0 h1 hm
  have hmain : main k p [.d v] = rotate k p v 0 := by
    simp [main, getoptLoop, hd, bind, Except.bind, pure, Except.pure]
  have hnerr : ¬ (p.onlineErr ≠ kCGErrorSuccess) := by simp [herr]
  refine ⟨hd, ?_, ?_⟩
  · intro hmem
    refine ⟨?_, _, angle2options_zero k, ?_⟩
    · rw [cgIDfromU32_eq, if_neg hnerr, if_pos hmem]
    · rw [hmain]
      exact rotate_probes_eq k p v 0 _ h0 (by decide) (angle2options_zero k) herr hmem
  · intro hmem
    refine ⟨?_, ?_, ?_⟩
    · rw [cgIDfromU32_eq, if_neg hnerr, if_neg hmem]
    · rw [hmain, rotate_of_some k p v 0 _ h0 (by decide) (angle2options_zero k),
        if_neg hnerr, if_neg hmem]
    · intro hne
      have hflag : ∀ l : List Nat, v ∉ l → setMainDisplay.flagLoop v l 0 = 0 := by
        intro l
        induction l with
        | nil => intro _; rfl
        | cons d rest ih =>
          intro hl
          have hdv : d ≠ v := fun hc => hl (by simp [hc])
          simp only [setMainDisplay.flagLoop, if_neg hdv]
          exact ih (fun hc => hl (List.mem_cons_of_mem _ hc))
      simp [setMainDisplay, hne, enumerate_ok p herr, hflag _ hmem]

/-- Witness of C10: the raw identifier `0x200` on `twoDisplays`. -/
theorem rawId_resolution_witness :
    0x200 < 2 ^ 32 ∧ twoDisplays.onlineErr = kCGErrorSuccess ∧ 0x200 ∈ snapshot twoDisplays ∧
    caseD twoDisplays 0x200 = .ok 0x200 ∧
    cgIDfromU32 twoDisplays 0x200 = .ok 0x200 :=
  have h := rawId_resolution sampleScale twoDisplays 0x200 (by decide) (by decide) (by decide)
    (by decide) rfl
  ⟨by decide, rfl, by decide, h.1, (h.2.1 (by decide)).1⟩

/-! ## The layout transaction -/

/-- The first loop of `setMainDisplay` sets the flag exactly when the target
is an entry. -/
theorem flagLoop_eq (targetDisplay : Nat) (l : List Nat) (flag : Int) :
    setMainDisplay.flagLoop targetDisplay l flag = if targetDisplay ∈ l then 1 else flag := by
  induction l generalizing flag with
  | nil => simp [setMainDisplay.flagLoop]
  | cons d rest ih =>
    simp only [setMainDisplay.flagLoop, ih]
    by_cases hd : d = targetDisplay
    · simp [hd]
    · have hd2 : ¬ targetDisplay = d := fun hc => hd hc.symm
      simp [hd, hd2]

/-- The conversion to 32 bits returns a representable value unchanged. -/
theorem toInt32_of_fits (x : Int) (h : FitsInt32 x) : toInt32 x = some x := by
  unfold toInt32
  exact if_pos h

/-- The conversion to 32 bits has a result only for a representable value, and
the result is the value. -/
theorem toInt32_eq_some (x y : Int) (h : toInt32 x = some y) : y = x ∧ FitsInt32 x := by
  unfold toInt32 at h
  split at h
  · next hf => exact ⟨(Option.some.inj h).symm, hf⟩
  · cases h

/-- The delta of a target whose negated origin is representable. -/
theorem delta_of_fits (p : Platform) (targetDisplay : Nat)
    (hx : FitsInt32 (-(p.minX targetDisplay))) (hy : FitsInt32 (-(p.minY targetDisplay))) :
    setMainDisplay.delta p targetDisplay =
      some (-(p.minX targetDisplay), -(p.minY targetDisplay)) := by
  simp [setMainDisplay.delta, toInt32_of_fits _ hx, toInt32_of_fits _ hy]

/-- The second loop of `setMainDisplay` configures the entries in order when
every sum is representable. -/
theorem configureLoop_of_fits (p : Platform) (deltaX deltaY : Int) (l : List Nat)
    (h : ∀ d ∈ l, FitsInt32 (p.minX d + deltaX) ∧ FitsInt32 (p.minY d + deltaY)) :
    setMainDisplay.configureLoop p deltaX deltaY l =
      some (l.map fun dID =>
        Event.configureDisplayOrigin dID (p.minX dID + deltaX) (p.minY dID + deltaY)) := by
  induction l with
  | nil => rfl
  | cons d rest ih =>
    have hd := h d (by simp)
    have hr := ih (fun x hx => h x (List.mem_cons_of_mem _ hx))
    simp [setMainDisplay.configureLoop, toInt32_of_fits _ hd.1, toInt32_of_fits _ hd.2, hr]

/-- The second loop of `setMainDisplay` has a result only when every sum is
representable, and the result configures the entries in order. -/
theorem configureLoop_eq_some (p : Platform) (deltaX deltaY : Int) (l : List Nat)
    (configured : List Event)
    (h : setMainDisplay.configureLoop p deltaX deltaY l = some configured) :
    configured = l.map (fun dID =>
      Event.configureDisplayOrigin dID (p.minX dID + deltaX) (p.minY dID + deltaY)) := by
  induction l generalizing configured with
  | nil =>
    simp only [setMainDisplay.configureLoop] at h
    exact (Option.some.inj h).symm
  | cons d rest ih =>
    simp only [setMainDisplay.configureLoop, bind, Option.bind, pure] at h
    cases hx : toInt32 (p.minX d + deltaX) with
    | none => rw [hx] at h; cases h
    | some x =>
      cases hy : toInt32 (p.minY d + deltaY) with
      | none => rw [hx, hy] at h; cases h
      | some y =>
        cases hc : setMainDisplay.configureLoop p deltaX deltaY rest with
        | none => rw [hx, hy, hc] at h; cases h
        | some tail =>
          rw [hx, hy, hc] at h
          have h1 := (toInt32_eq_some _ _ hx).1
          have h2 := (toInt32_eq_some _ _ hy).1
          have h3 := ih tail hc
          rw [← Option.some.inj h, h1, h2, h3, List.map_cons]

/-- The second loop of `setMainDisplay` has a result only when every sum is
representable in 32 bits. -/
theorem configureLoop_fits_of_some (p : Platform) (deltaX deltaY : Int) (l : List Nat)
    (configured : List Event)
    (h : setMainDisplay.configureLoop p deltaX deltaY l = some configured) :
    ∀ d ∈ l, FitsInt32 (p.minX d + deltaX) ∧ FitsInt32 (p.minY d + deltaY) := by
  induction l generalizing configured with
  | nil => intro d hd; simp at hd
  | cons a rest ih =>
    simp only [setMainDisplay.configureLoop, bind, Option.bind, pure] at h
    cases hx : toInt32 (p.minX a + deltaX) with
    | none => rw [hx] at h; cases h
    | some x =>
      cases hy : toInt32 (p.minY a + deltaY) with
      | none => rw [hx, hy] at h; cases h
      | some y =>
        cases hc : setMainDisplay.configureLoop p deltaX deltaY rest with
        | none => rw [hx, hy, hc] at h; cases h
        | some tail =>
          intro d hd
          rcases List.mem_cons.1 hd with hda | hdr
          · subst hda
            exact ⟨(toInt32_eq_some _ _ hx).2, (toInt32_eq_some _ _ hy).2⟩
          · exact ih tail hc d hdr

/-- Every result of `setMainDisplay`. -/
theorem setMainDisplay_eq (p : Platform) (targetDisplay : Nat) :
    setMainDisplay p targetDisplay =
      if p.CGMainDisplayID = targetDisplay then .exit 0 []
      else if p.onlineErr ≠ kCGErrorSuccess then
        .exit 1 [.stderr (.onlineListError p.onlineErr)]
      else if targetDisplay ∈ snapshot p then
        setMainDisplay.transaction p targetDisplay (snapshot p)
      else .exit 1 [.stderr (.noSuchDisplay targetDisplay)] := by
  unfold setMainDisplay
  by_cases hmain : p.CGMainDisplayID = targetDisplay
  · simp only [if_pos hmain]
  · simp only [if_neg hmain]
    by_cases herr : p.onlineErr ≠ kCGErrorSuccess
    · rw [if_pos herr, enumerate_error p herr]
    · rw [if_neg herr, enumerate_ok p (by simpa using herr)]
      simp only [flagLoop_eq]
      by_cases hm : targetDisplay ∈ snapshot p
      · simp [hm]
      · simp [hm]

/-- The origins in a list of `CGConfigureDisplayOrigin` events between the two
ends of a layout transaction. -/
theorem origins_transaction (status : Nat) (l : List Nat) (fx fy : Nat → Int) :
    (Outcome.exit status (.beginDisplayConfiguration
      :: l.map (fun dID => Event.configureDisplayOrigin dID (fx dID) (fy dID))
      ++ [.completeDisplayConfiguration])).origins = l.map fun dID => (dID, fx dID, fy dID) := by
  simp only [Outcome.origins, List.filterMap_cons, List.filterMap_append, List.filterMap_nil,
    List.append_nil]
  induction l with
  | nil => rfl
  | cons d rest ih => simp only [List.map_cons, List.filterMap_cons, ih]

/-- A layout transaction holds no rotation request. -/
theorem probes_transaction (status : Nat) (l : List Nat) (fx fy : Nat → Int) :
    (Outcome.exit status (.beginDisplayConfiguration
      :: l.map (fun dID => Event.configureDisplayOrigin dID (fx dID) (fy dID))
      ++ [.completeDisplayConfiguration])).probes = [] := by
  simp only [Outcome.probes, List.filterMap_cons, List.filterMap_append, List.filterMap_nil,
    List.append_nil]
  induction l with
  | nil => rfl
  | cons d rest ih => simp only [List.map_cons, List.filterMap_cons, ih]

/-- The end of `setMainDisplay` issues no rotation request. -/
theorem transaction_probes (p : Platform) (targetDisplay : Nat) (l : List Nat) :
    (setMainDisplay.transaction p targetDisplay l).probes = [] := by
  unfold setMainDisplay.transaction
  split
  · rfl
  · split
    · rfl
    · rename_i configured hc
      rw [configureLoop_eq_some p _ _ l configured hc]
      exact probes_transaction 0 l _ _

/-- The function `setMainDisplay` issues no rotation request. -/
theorem setMainDisplay_probes (p : Platform) (targetDisplay : Nat) :
    (setMainDisplay p targetDisplay).probes = [] := by
  rw [setMainDisplay_eq]
  split
  · rfl
  · split
    · rfl
    · split
      · exact transaction_probes p targetDisplay (snapshot p)
      · rfl

/-- The end of `setMainDisplay` when the layout can be moved onto the target
within 32-bit integers: one transaction that moves every entry by the delta. -/
theorem transaction_of_reanchorable (p : Platform) (targetDisplay : Nat)
    (hfit : Reanchorable p targetDisplay) :
    setMainDisplay.transaction p targetDisplay (snapshot p) =
      .exit 0 (.beginDisplayConfiguration
        :: (snapshot p).map (fun dID => Event.configureDisplayOrigin dID
              (p.minX dID - p.minX targetDisplay) (p.minY dID - p.minY targetDisplay))
        ++ [.completeDisplayConfiguration]) := by
  obtain ⟨hx, hy, hall⟩ := hfit
  unfold setMainDisplay.transaction
  rw [delta_of_fits p targetDisplay hx hy]
  have hl := configureLoop_of_fits p (-(p.minX targetDisplay)) (-(p.minY targetDisplay))
    (snapshot p) (by
      intro d hd
      have := hall d hd
      simpa only [Int.sub_eq_add_neg] using this)
  simp only [hl, Int.sub_eq_add_neg]

/-- The end of `setMainDisplay` has a defined result only when the layout can
be moved onto the target within 32-bit integers. -/
theorem transaction_undefined_of_not_reanchorable (p : Platform) (targetDisplay : Nat)
    (hfit : ¬ Reanchorable p targetDisplay) :
    setMainDisplay.transaction p targetDisplay (snapshot p) = .undefined := by
  unfold setMainDisplay.transaction
  cases hd : setMainDisplay.delta p targetDisplay with
  | none => rfl
  | some d =>
    obtain ⟨deltaX, deltaY⟩ := d
    cases hc : setMainDisplay.configureLoop p deltaX deltaY (snapshot p) with
    | none => simp only [hc]
    | some configured =>
      exfalso
      apply hfit
      simp only [setMainDisplay.delta, bind, Option.bind, pure] at hd
      cases hx : toInt32 (-(p.minX targetDisplay)) with
      | none => rw [hx] at hd; cases hd
      | some x =>
        cases hy : toInt32 (-(p.minY targetDisplay)) with
        | none => rw [hx, hy] at hd; cases hd
        | some y =>
          rw [hx, hy] at hd
          have hxy := Option.some.inj hd
          simp only [Prod.mk.injEq] at hxy
          have h1 := toInt32_eq_some _ _ hx
          have h2 := toInt32_eq_some _ _ hy
          have hall := configureLoop_fits_of_some p deltaX deltaY (snapshot p) configured hc
          refine ⟨h1.2, h2.2, ?_⟩
          intro r hr
          have := hall r hr
          rw [← hxy.1, ← hxy.2, h1.1, h2.1] at this
          simpa only [Int.sub_eq_add_neg] using this

/-- The outcome of `setMainDisplay` for a target of the snapshot that is not
the main display, when the layout can be moved onto it within 32-bit integers:
one transaction that moves every entry by the delta. -/
theorem setMainDisplay_of_mem (p : Platform) (targetDisplay : Nat)
    (herr : p.onlineErr = kCGErrorSuccess) (hmem : targetDisplay ∈ snapshot p)
    (hmain : p.CGMainDisplayID ≠ targetDisplay) (hfit : Reanchorable p targetDisplay) :
    setMainDisplay p targetDisplay =
      .exit 0 (.beginDisplayConfiguration
        :: (snapshot p).map (fun dID => Event.configureDisplayOrigin dID
              (p.minX dID - p.minX targetDisplay) (p.minY dID - p.minY targetDisplay))
        ++ [.completeDisplayConfiguration]) := by
  rw [setMainDisplay_eq, if_neg hmain, if_neg (by simp [herr]), if_pos hmem]
  exact transaction_of_reanchorable p targetDisplay hfit

/-! ## The claims about `setMainDisplay` -/

/-- C12 (fails beyond 32 bits): with `0x100` at x = -2000000000 and the target
`0x200` at x = 2000000000, the offset of `0x100` from the target is
-4000000000, which the `int32_t` parameter of `CGConfigureDisplayOrigin`
cannot hold: the conversion has no defined result and the run does not
configure the origins `(r.x - target.x, r.y - target.y)`. -/
theorem reanchor_overflows_wide_layout :
    wideLayout.onlineErr = kCGErrorSuccess ∧ 0x200 ∈ snapshot wideLayout ∧
    wideLayout.CGMainDisplayID ≠ 0x200 ∧
    wideLayout.minX 0x100 - wideLayout.minX 0x200 = -4000000000 ∧
    toInt32 (wideLayout.minX 0x100 - wideLayout.minX 0x200) = none ∧
    setMainDisplay wideLayout 0x200 = .undefined ∧
    (setMainDisplay wideLayout 0x200).origins ≠
      (snapshot wideLayout).map (fun r =>
        (r, wideLayout.minX r - wideLayout.minX 0x200,
          wideLayout.minY r - wideLayout.minY 0x200)) :=
  ⟨rfl, by decide, by decide, by decide, by decide, by decide, by decide⟩

/-- C12 as amended: for a target of the snapshot that is not the main display,
whose negated origin and the offsets of all displays from it are representable
in a 32-bit `int`, `setMainDisplay` exits with status 0 after configuring, for
every entry `r` of the snapshot in order, the origin
`(r.x - target.x, r.y - target.y)`; the origin configured for the target is
`(0, 0)`, and the offset of every configured origin from the one configured
for the target is the old offset. -/
theorem reanchor_preserves_layout (p : Platform) (targetDisplay : Nat)
    (herr : p.onlineErr = kCGErrorSuccess) (hmem : targetDisplay ∈ snapshot p)
    (hmain : p.CGMainDisplayID ≠ targetDisplay) (hfit : Reanchorable p targetDisplay) :
    (∃ events, setMainDisplay p targetDisplay = .exit 0 events) ∧
    (setMainDisplay p targetDisplay).origins =
      (snapshot p).map (fun r =>
        (r, p.minX r - p.minX targetDisplay, p.minY r - p.minY targetDisplay)) ∧
    (∀ x y, (targetDisplay, x, y) ∈ (setMainDisplay p targetDisplay).origins ↔ x = 0 ∧ y = 0) ∧
    (∀ r x y tx ty, (r, x, y) ∈ (setMainDisplay p targetDisplay).origins →
      (targetDisplay, tx, ty) ∈ (setMainDisplay p targetDisplay).origins →
      x - tx = p.minX r - p.minX targetDisplay ∧ y - ty = p.minY r - p.minY targetDisplay) := by
  have hs := setMainDisplay_of_mem p targetDisplay herr hmem hmain hfit
  have ho : (setMainDisplay p targetDisplay).origins =
      (snapshot p).map (fun r =>
        (r, p.minX r - p.minX targetDisplay, p.minY r - p.minY targetDisplay)) := by
    rw [hs]
    exact origins_transaction 0 (snapshot p) (fun r => p.minX r - p.minX targetDisplay)
      (fun r => p.minY r - p.minY targetDisplay)
  have hmemo : ∀ r x y, (r, x, y) ∈ (setMainDisplay p targetDisplay).origins ↔
      r ∈ snapshot p ∧ x = p.minX r - p.minX targetDisplay ∧
        y = p.minY r - p.minY targetDisplay := by
    intro r x y
    rw [ho, List.mem_map]
    constructor
    · rintro ⟨d, hd, heq⟩
      simp only [Prod.mk.injEq] at heq
      obtain ⟨h1, h2, h3⟩ := heq
      subst h1
      exact ⟨hd, h2.symm, h3.symm⟩
    · rintro ⟨hr, hx, hy⟩
      exact ⟨r, hr, by rw [hx, hy]⟩
  refine ⟨⟨_, hs⟩, ho, ?_, ?_⟩
  · intro x y
    rw [hmemo]
    constructor
    · rintro ⟨_, hx, hy⟩
      exact ⟨by omega, by omega⟩
    · rintro ⟨hx, hy⟩
      exact ⟨hmem, by omega, by omega⟩
  · intro r x y tx ty hr ht
    obtain ⟨_, hx, hy⟩ := (hmemo r x y).1 hr
    obtain ⟨_, htx, hty⟩ := (hmemo targetDisplay tx ty).1 ht
    exact ⟨by omega, by omega⟩

/-- The layout of `twoDisplays` can be moved onto `0x200` within 32 bits. -/
theorem twoDisplays_reanchorable : Reanchorable twoDisplays 0x200 := by
  unfold Reanchorable
  decide

/-- Witness of the amended C12: with `0x100` at `(0, 0)` and `0x200` at
`(1920, 0)`, the target `0x200` moves to `(0, 0)` and `0x100` to
`(-1920, 0)`. -/
theorem reanchor_preserves_layout_witness :
    twoDisplays.onlineErr = kCGErrorSuccess ∧ 0x200 ∈ snapshot twoDisplays ∧
    twoDisplays.CGMainDisplayID ≠ 0x200 ∧ Reanchorable twoDisplays 0x200 ∧
    (setMainDisplay twoDisplays 0x200).origins = [(0x100, -1920, 0), (0x200, 0, 0)] :=
  ⟨rfl, by decide, by decide, twoDisplays_reanchorable,
    (reanchor_preserves_layout twoDisplays 0x200 rfl (by decide) (by decide)
      twoDisplays_reanchorable).2.1.trans (by decide)⟩

/-- C14: when the target is the main display, `setMainDisplay` exits with
status 0 without any event: no origin is configured and no layout transaction
is begun, whatever the snapshot and the result of the enumeration. -/
theorem setMainDisplay_already_main (p : Platform) :
    setMainDisplay p p.CGMainDisplayID = .exit 0 [] ∧
    (setMainDisplay p p.CGMainDisplayID).origins = [] ∧
    Event.beginDisplayConfiguration ∉ (setMainDisplay p p.CGMainDisplayID).events := by
  have h : setMainDisplay p p.CGMainDisplayID = .exit 0 [] := by
    rw [setMainDisplay_eq, if_pos rfl]
  rw [h]
  exact ⟨rfl, rfl, by simp [Outcome.events]⟩

/-- C15 (fails when the absent target is the main identifier): the window
server reports the main display `0x300`, which is not in the snapshot, and
`setMainDisplay(0x300)` exits with status 0 instead of failing. -/
theorem setMainDisplay_absent_main_succeeds :
    absentMain.onlineErr = kCGErrorSuccess ∧
    0x300 ∉ snapshot absentMain ∧
    absentMain.CGMainDisplayID = 0x300 ∧
    setMainDisplay absentMain 0x300 = .exit 0 [] :=
  ⟨rfl, by decide, rfl, by decide⟩

/-- C15 as amended: after a successful enumeration, a target that is not in
the snapshot and is not the main identifier makes `setMainDisplay` exit with
status 1 and the diagnostic for an unknown display, and no origin is
configured; a target that is absent and equal to the main identifier makes it
exit with status 0, again without configuring an origin. -/
theorem setMainDisplay_absent_target (p : Platform) (targetDisplay : Nat)
    (herr : p.onlineErr = kCGErrorSuccess) (habs : targetDisplay ∉ snapshot p) :
    (p.CGMainDisplayID ≠ targetDisplay →
      setMainDisplay p targetDisplay = .exit 1 [.stderr (.noSuchDisplay targetDisplay)]) ∧
    (p.CGMainDisplayID = targetDisplay → setMainDisplay p targetDisplay = .exit 0 []) ∧
    (setMainDisplay p targetDisplay).origins = [] := by
  have h1 : p.CGMainDisplayID ≠ targetDisplay →
      setMainDisplay p targetDisplay = .exit 1 [.stderr (.noSuchDisplay targetDisplay)] := by
    intro hne
    rw [setMainDisplay_eq, if_neg hne, if_neg (by simp [herr]), if_neg habs]
  have h2 : p.CGMainDisplayID = targetDisplay → setMainDisplay p targetDisplay = .exit 0 [] := by
    intro he
    rw [setMainDisplay_eq, if_pos he]
  refine ⟨h1, h2, ?_⟩
  by_cases he : p.CGMainDisplayID = targetDisplay
  · rw [h2 he]; rfl
  · rw [h1 he]; rfl

/-- Witness of the amended C15: the identifier `0x300` on `twoDisplays`. -/
theorem setMainDisplay_absent_target_witness :
    twoDisplays.onlineErr = kCGErrorSuccess ∧ 0x300 ∉ snapshot twoDisplays ∧
    setMainDisplay twoDisplays 0x300 = .exit 1 [.stderr (.noSuchDisplay 0x300)] :=
  ⟨rfl, by decide,
    (setMainDisplay_absent_target twoDisplays 0x300 rfl (by decide)).1 (by decide)⟩

/-! ## Applying a layout transaction -/

/-- Applying origins leaves the list of online displays and the result of the
enumeration alone. -/
theorem applyOrigins_online (events : List Event) (p : Platform) :
    (applyOrigins p events).online = p.online ∧
    (applyOrigins p events).onlineErr = p.onlineErr := by
  induction events generalizing p with
  | nil => exact ⟨rfl, rfl⟩
  | cons e rest ih =>
    cases e <;> simp only [applyOrigins] <;> exact ih _

/-- The start of a transaction configures no origin. -/
theorem applyOrigins_begin (p : Platform) (rest : List Event) :
    applyOrigins p (.beginDisplayConfiguration :: rest) = applyOrigins p rest := rfl

/-- One `CGConfigureDisplayOrigin` replaces the origin of its display. -/
theorem applyOrigins_cons_configure (p : Platform) (dID : Nat) (x y : Int) (rest : List Event) :
    applyOrigins p (.configureDisplayOrigin dID x y :: rest) =
      applyOrigins (p.setOrigin dID x y) rest := rfl

/-- The origins after a list of `CGConfigureDisplayOrigin` calls, one per entry
of `l`, followed by the end of the transaction. -/
theorem applyOrigins_configure (fx fy : Nat → Int) (l : List Nat) (p : Platform) (d : Nat) :
    (applyOrigins p (l.map (fun dID => Event.configureDisplayOrigin dID (fx dID) (fy dID))
        ++ [.completeDisplayConfiguration])).minX d = (if d ∈ l then fx d else p.minX d) ∧
    (applyOrigins p (l.map (fun dID => Event.configureDisplayOrigin dID (fx dID) (fy dID))
        ++ [.completeDisplayConfiguration])).minY d = (if d ∈ l then fy d else p.minY d) := by
  induction l generalizing p with
  | nil => simp [applyOrigins]
  | cons a rest ih =>
    rw [List.map_cons, List.cons_append, applyOrigins_cons_configure,
      (ih (p.setOrigin a (fx a) (fy a))).1, (ih (p.setOrigin a (fx a) (fy a))).2]
    by_cases hr : d ∈ rest
    · simp [hr]
    · by_cases ha : d = a
      · subst ha
        simp [hr, Platform.setOrigin]
      · simp [hr, ha, Platform.setOrigin]

/-- The snapshot is the same after a commit. -/
theorem snapshot_commitLayout (p : Platform) (o : Outcome) (mainAfter : Nat) :
    snapshot (commitLayout p o mainAfter) = snapshot p ∧
    (commitLayout p o mainAfter).onlineErr = p.onlineErr := by
  have h := applyOrigins_online o.events p
  constructor
  · simp only [snapshot, CGGetOnlineDisplayList, commitLayout, h.1]
  · simp only [commitLayout, h.2]

/-- The origins after the transaction of `setMainDisplay` is committed: every
display of the snapshot keeps its offset from the target, which sits at the
origin (a target that was the main display sat there before). -/
theorem commitLayout_origins (p : Platform) (targetDisplay mainAfter : Nat)
    (herr : p.onlineErr = kCGErrorSuccess) (hmem : targetDisplay ∈ snapshot p)
    (hfit : Reanchorable p targetDisplay)
    (horigin : p.CGMainDisplayID = targetDisplay →
      p.minX targetDisplay = 0 ∧ p.minY targetDisplay = 0)
    (r : Nat) (hr : r ∈ snapshot p) :
    (commitLayout p (setMainDisplay p targetDisplay) mainAfter).minX r =
      p.minX r - p.minX targetDisplay ∧
    (commitLayout p (setMainDisplay p targetDisplay) mainAfter).minY r =
      p.minY r - p.minY targetDisplay := by
  by_cases hmain : p.CGMainDisplayID = targetDisplay
  · have h : setMainDisplay p targetDisplay = .exit 0 [] := by
      rw [setMainDisplay_eq, if_pos hmain]
    rw [h]
    have h0 := horigin hmain
    simp only [commitLayout, Outcome.events, applyOrigins]
    exact ⟨by omega, by omega⟩
  · rw [setMainDisplay_of_mem p targetDisplay herr hmem hmain hfit]
    have h := applyOrigins_configure (fun r => p.minX r - p.minX targetDisplay)
      (fun r => p.minY r - p.minY targetDisplay) (snapshot p) p r
    simp only [if_pos hr] at h
    simp only [commitLayout, Outcome.events, List.cons_append, applyOrigins_begin]
    exact h

/-- With the target at the origin and every origin of the snapshot
representable in 32 bits, `setMainDisplay` computes the delta `(0, 0)`, exits
with status 0 and configures for every display the origin it already has. -/
theorem setMainDisplay_at_origin (q : Platform) (targetDisplay : Nat)
    (herr : q.onlineErr = kCGErrorSuccess) (hmem : targetDisplay ∈ snapshot q)
    (hx : q.minX targetDisplay = 0) (hy : q.minY targetDisplay = 0)
    (hfit : ∀ r ∈ snapshot q, FitsInt32 (q.minX r) ∧ FitsInt32 (q.minY r)) :
    setMainDisplay.delta q targetDisplay = some (0, 0) ∧
    (∃ events, setMainDisplay q targetDisplay = .exit 0 events) ∧
    (∀ r x y, (r, x, y) ∈ (setMainDisplay q targetDisplay).origins →
      x = q.minX r ∧ y = q.minY r) ∧
    (q.CGMainDisplayID ≠ targetDisplay →
      (setMainDisplay q targetDisplay).origins =
        (snapshot q).map (fun r => (r, q.minX r, q.minY r))) := by
  have hzero : FitsInt32 (-(0 : Int)) := by decide
  have hre : Reanchorable q targetDisplay := by
    refine ⟨by rw [hx]; exact hzero, by rw [hy]; exact hzero, ?_⟩
    intro r hr
    rw [hx, hy, Int.sub_zero, Int.sub_zero]
    exact hfit r hr
  have hne : q.CGMainDisplayID ≠ targetDisplay →
      (setMainDisplay q targetDisplay).origins =
        (snapshot q).map (fun r => (r, q.minX r, q.minY r)) := by
    intro hmain
    rw [setMainDisplay_of_mem q targetDisplay herr hmem hmain hre, hx, hy]
    simp only [Int.sub_zero]
    exact origins_transaction 0 (snapshot q) q.minX q.minY
  have hd : setMainDisplay.delta q targetDisplay = some (0, 0) := by
    rw [delta_of_fits q targetDisplay (by rw [hx]; exact hzero) (by rw [hy]; exact hzero),
      hx, hy]
    rfl
  refine ⟨hd, ?_, ?_, hne⟩
  · by_cases hmain : q.CGMainDisplayID = targetDisplay
    · exact ⟨[], by rw [setMainDisplay_eq, if_pos hmain]⟩
    · exact ⟨_, setMainDisplay_of_mem q targetDisplay herr hmem hmain hre⟩
  · intro r x y h
    by_cases hmain : q.CGMainDisplayID = targetDisplay
    · rw [setMainDisplay_eq, if_pos hmain] at h
      simp [Outcome.origins] at h
    · rw [hne hmain, List.mem_map] at h
      obtain ⟨d, _, heq⟩ := h
      simp only [Prod.mk.injEq] at heq
      obtain ⟨h1, h2, h3⟩ := heq
      subst h1
      exact ⟨h2.symm, h3.symm⟩

/-- C13 (fails beyond 32 bits): with the target `0x200` at x = 3000000000 the
negated origin is not representable in an `int`, the first run has no defined
result and configures no origin, and after it the delta for the target is not
`(0, 0)`. -/
theorem reanchor_far_target_not_idempotent :
    farTarget.onlineErr = kCGErrorSuccess ∧ 0x200 ∈ snapshot farTarget ∧
    toInt32 (-(farTarget.minX 0x200)) = none ∧
    setMainDisplay farTarget 0x200 = .undefined ∧
    (setMainDisplay farTarget 0x200).origins = [] ∧
    setMainDisplay.delta (commitLayout farTarget (setMainDisplay farTarget 0x200) 0x200)
      0x200 ≠ some (0, 0) ∧
    setMainDisplay.delta (commitLayout farTarget (setMainDisplay farTarget 0x200) 0x100)
      0x200 ≠ some (0, 0) :=
  ⟨rfl, by decide, by decide, by decide, by decide, by decide, by decide⟩

/-- C13 as amended: take a target of the snapshot whose negated origin and the
offsets of all displays from it are representable in a 32-bit `int`, run
`setMainDisplay`, commit the origins it configured, and run `setMainDisplay`
on the resulting window server (whichever display it then reports as main, and
given that a target that was already main sat at the origin): the snapshot is
the same, the delta computed for the target is `(0, 0)`, the second run exits
with status 0, and every origin it configures is the origin the display
already has. -/
theorem reanchor_idempotent (p : Platform) (targetDisplay mainAfter : Nat)
    (herr : p.onlineErr = kCGErrorSuccess) (hmem : targetDisplay ∈ snapshot p)
    (hfit : Reanchorable p targetDisplay)
    (horigin : p.CGMainDisplayID = targetDisplay →
      p.minX targetDisplay = 0 ∧ p.minY targetDisplay = 0) :
    snapshot (commitLayout p (setMainDisplay p targetDisplay) mainAfter) = snapshot p ∧
    setMainDisplay.delta (commitLayout p (setMainDisplay p targetDisplay) mainAfter)
      targetDisplay = some (0, 0) ∧
    (∃ events, setMainDisplay (commitLayout p (setMainDisplay p targetDisplay) mainAfter)
      targetDisplay = .exit 0 events) ∧
    (∀ r x y,
      (r, x, y) ∈ (setMainDisplay (commitLayout p (setMainDisplay p targetDisplay) mainAfter)
        targetDisplay).origins →
      x = (commitLayout p (setMainDisplay p targetDisplay) mainAfter).minX r ∧
      y = (commitLayout p (setMainDisplay p targetDisplay) mainAfter).minY r) ∧
    (mainAfter ≠ targetDisplay →
      (setMainDisplay (commitLayout p (setMainDisplay p targetDisplay) mainAfter)
        targetDisplay).origins =
      (snapshot p).map (fun r =>
        (r, (commitLayout p (setMainDisplay p targetDisplay) mainAfter).minX r,
          (commitLayout p (setMainDisplay p targetDisplay) mainAfter).minY r))) := by
  have hs := snapshot_commitLayout p (setMainDisplay p targetDisplay) mainAfter
  have hall := commitLayout_origins p targetDisplay mainAfter herr hmem hfit horigin
  have ho := hall targetDisplay hmem
  have h := setMainDisplay_at_origin
    (commitLayout p (setMainDisplay p targetDisplay) mainAfter) targetDisplay
    (by rw [hs.2]; exact herr) (by rw [hs.1]; exact hmem)
    (by rw [ho.1]; omega) (by rw [ho.2]; omega)
    (by
      intro r hr
      rw [hs.1] at hr
      rw [(hall r hr).1, (hall r hr).2]
      exact hfit.2.2 r hr)
  refine ⟨hs.1, h.1, h.2.1, h.2.2.1, ?_⟩
  intro hne
  have h4 := h.2.2.2 hne
  rw [hs.1] at h4
  exact h4

/-- Witness of the amended C13: after `0x200` of `twoDisplays` is moved to the
origin and has become the main display, the delta for it is `(0, 0)`; were
`0x100` still reported as main, a second run would configure the origins
already in place. -/
theorem reanchor_idempotent_witness :
    twoDisplays.onlineErr = kCGErrorSuccess ∧ 0x200 ∈ snapshot twoDisplays ∧
    Reanchorable twoDisplays 0x200 ∧
    setMainDisplay.delta (commitLayout twoDisplays (setMainDisplay twoDisplays 0x200) 0x200)
      0x200 = some (0, 0) ∧
    (setMainDisplay (commitLayout twoDisplays (setMainDisplay twoDisplays 0x200) 0x100)
      0x200).origins = [(0x100, -1920, 0), (0x200, 0, 0)] :=
  ⟨rfl, by decide, twoDisplays_reanchorable,
    (reanchor_idempotent twoDisplays 0x200 0x200 rfl (by decide) twoDisplays_reanchorable
      (fun h => absurd h (by decide))).2.1,
    by decide⟩

/-! ## The option loop -/

/-- The function `InternalID` after a failed enumeration. -/
theorem InternalID_error (p : Platform) (herr : p.onlineErr ≠ kCGErrorSuccess) :
    InternalID p = .error (.exit 1 [.stderr (.onlineListError p.onlineErr)]) := by
  simp [InternalID, enumerate_error p herr, bind, Except.bind]

/-- The function `nonInternalID` after a failed enumeration. -/
theorem nonInternalID_error (p : Platform) (herr : p.onlineErr ≠ kCGErrorSuccess) :
    nonInternalID p = .error (.exit 1 [.stderr (.onlineListError p.onlineErr)]) := by
  simp [nonInternalID, enumerate_error p herr, bind, Except.bind]

/-- The option `-d` ends the program only with status 1 and one diagnostic:
that of a failed enumeration or that of a missing external display. -/
theorem caseD_error (p : Platform) (value : Nat) (o : Outcome)
    (h : caseD p value = .error o) :
    o = .exit 1 [.stderr (.onlineListError p.onlineErr)] ∨
    o = .exit 1 [.stderr .noActiveExternal] := by
  unfold caseD at h
  by_cases herr : p.onlineErr ≠ kCGErrorSuccess
  · rw [InternalID_error p herr, nonInternalID_error p herr] at h
    simp only [bind, Except.bind, pure, Except.pure] at h
    split_ifs at h <;> exact Or.inl (Except.error.inj h).symm
  · have herr2 : p.onlineErr = kCGErrorSuccess := by simpa using herr
    rw [InternalID_eq p herr2, nonInternalID_eq p herr2] at h
    simp only [bind, Except.bind, pure, Except.pure, throw, throwThe, MonadExceptOf.throw] at h
    split_ifs at h <;> exact Or.inr (Except.error.inj h).symm

/-- Every result of `listDisplays`. -/
theorem listDisplays_eq (p : Platform) :
    listDisplays p =
      if p.onlineErr ≠ kCGErrorSuccess then
        .exit 1 [.stderr (.onlineListError p.onlineErr)]
      else .exit 0 [.printList (snapshot p)] := by
  unfold listDisplays
  by_cases herr : p.onlineErr ≠ kCGErrorSuccess
  · rw [if_pos herr, enumerate_error p herr]
  · rw [if_neg herr, enumerate_ok p (by simpa using herr)]

/-- Every result of `infoDisplays`. -/
theorem infoDisplays_eq (p : Platform) :
    infoDisplays p =
      if p.onlineErr ≠ kCGErrorSuccess then
        .exit 1 [.stderr (.onlineListError p.onlineErr)]
      else .exit 0 [.printInfo (snapshot p)] := by
  unfold infoDisplays
  by_cases herr : p.onlineErr ≠ kCGErrorSuccess
  · rw [if_pos herr, enumerate_error p herr]
  · rw [if_neg herr, enumerate_ok p (by simpa using herr)]

/-- One step of the option loop on `-d`. -/
theorem getoptLoop_d (p : Platform) (value : Nat) (rest : List Opt) (targetDisplay : Nat)
    (angle : Int) :
    getoptLoop p (.d value :: rest) targetDisplay angle =
      match caseD p value with
      | .error o => .error o
      | .ok t => getoptLoop p rest t angle := by
  simp only [getoptLoop, bind, Except.bind]
  cases caseD p value <;> rfl

/-- A run that the option loop ends has issued no rotation request. -/
theorem getoptLoop_error_probes (p : Platform) (argv : List Opt) (targetDisplay : Nat)
    (angle : Int) (o : Outcome) (h : getoptLoop p argv targetDisplay angle = .error o) :
    o.probes = [] := by
  induction argv generalizing targetDisplay angle with
  | nil => simp [getoptLoop, pure, Except.pure] at h
  | cons opt rest ih =>
    cases opt with
    | d value =>
      rw [getoptLoop_d] at h
      cases hc : caseD p value with
      | error e =>
        rw [hc] at h
        have he : e = o := Except.error.inj h
        subst he
        rcases caseD_error p value e hc with h1 | h1 <;> rw [h1] <;> rfl
      | ok t =>
        rw [hc] at h
        exact ih t angle h
    | l =>
      have he : listDisplays p = o := Except.error.inj h
      rw [← he, listDisplays_eq]
      split <;> rfl
    | i =>
      have he : infoDisplays p = o := Except.error.inj h
      rw [← he, infoDisplays_eq]
      split <;> rfl
    | m =>
      have he : setMainDisplay p targetDisplay = o := Except.error.inj h
      rw [← he]
      exact setMainDisplay_probes p targetDisplay
    | r value => exact ih targetDisplay value h
    | other => exact ih targetDisplay angle h

/-- The function `main` in terms of the rotation step, with the toggle
resolved. -/
theorem main_of_loop (k : IOScale) (p : Platform) (argv : List Opt) (targetDisplay : Nat)
    (angle : Int) (h : getoptLoop p argv 0 0 = .ok (targetDisplay, angle)) :
    main k p argv =
      rotate k p targetDisplay
        (if angle = 1 then (if p.CGDisplayRotation targetDisplay = 0 then 90 else 0)
         else angle) := by
  simp only [main, h]
  by_cases ha : angle = 1
  · rw [if_pos ha, ha]
    exact rotate_toggle k p targetDisplay
  · rw [if_neg ha]

/-- The angle the rotation step encodes is never the toggle sentinel. -/
theorem effective_angle_ne_one (rotation angle : Int) :
    (if angle = 1 then (if rotation = 0 then (90 : Int) else 0) else angle) ≠ 1 := by
  split_ifs <;> omega

/-! ## The claim about the identifier of the rotation request -/

/-- C11: every rotation request of a run names a display of the snapshot, the
one the option loop selected, and is made after a successful enumeration; and
a run with defined behaviour whose selected target is not in the snapshot ends
with status 1 without any rotation request. -/
theorem probe_target_in_snapshot (k : IOScale) (p : Platform) (argv : List Opt) :
    (∀ dID options, (dID, options) ∈ (main k p argv).probes →
      p.onlineErr = kCGErrorSuccess ∧ dID ∈ snapshot p ∧
      ∃ angle, getoptLoop p argv 0 0 = .ok (dID, angle)) ∧
    (∀ targetDisplay angle, getoptLoop p argv 0 0 = .ok (targetDisplay, angle) →
      targetDisplay ∉ snapshot p → main k p argv ≠ .undefined →
      (∃ events, main k p argv = .exit 1 events) ∧ (main k p argv).probes = []) := by
  constructor
  · intro dID options h
    cases hl : getoptLoop p argv 0 0 with
    | error o =>
      have hm : main k p argv = o := by simp only [main, hl]
      rw [hm, getoptLoop_error_probes p argv 0 0 o hl] at h
      simp at h
    | ok ta =>
      obtain ⟨t, a⟩ := ta
      rw [main_of_loop k p argv t a hl] at h
      have hne := effective_angle_ne_one (p.CGDisplayRotation t) a
      have h1 := rotate_probes_mem k p t _ hne dID options h
      have ht : t ≠ 0 := by
        intro hc
        simp [rotate, hc, usage, Outcome.probes] at h
      rw [rotate_of_some k p t _ options ht hne h1.2.symm] at h
      have hd : dID = t := h1.1
      subst hd
      split at h
      · simp [Outcome.probes] at h
      · next herr =>
        split at h
        · next hmem => exact ⟨by simpa using herr, hmem, a, rfl⟩
        · simp [Outcome.probes] at h
  · intro t a hl habs hdef
    rw [main_of_loop k p argv t a hl] at hdef ⊢
    have hne := effective_angle_ne_one (p.CGDisplayRotation t) a
    by_cases ht : t = 0
    · subst ht
      exact ⟨⟨[.stderr .usage], by simp [rotate, usage]⟩,
        by simp [rotate, usage, Outcome.probes]⟩
    · cases ho : angle2options k
          (if a = 1 then (if p.CGDisplayRotation t = 0 then 90 else 0) else a) with
      | none => exact absurd (by simp [rotate, ht, hne, ho]) hdef
      | some options =>
        rw [rotate_of_some k p t _ options ht hne ho, if_neg habs]
        split
        · exact ⟨⟨_, rfl⟩, rfl⟩
        · exact ⟨⟨_, rfl⟩, rfl⟩

/-- Witness of C11: `-d 200 -r 90` on `twoDisplays` requests the rotation of
`0x200`, a display of the snapshot. -/
theorem probe_target_in_snapshot_witness :
    (main sampleScale twoDisplays [.d 0x200, .r 90]).probes = [(0x200, 0x30400)] ∧
    twoDisplays.onlineErr = kCGErrorSuccess ∧ 0x200 ∈ snapshot twoDisplays ∧
    ∃ angle, getoptLoop twoDisplays [.d 0x200, .r 90] 0 0 = .ok (0x200, angle) :=
  ⟨by decide,
    (probe_target_in_snapshot sampleScale twoDisplays [.d 0x200, .r 90]).1 0x200 0x30400
      (by decide)⟩

/-! ## Command lines without `-d` -/

/-- Without a `-d` the option loop keeps the target it starts from, and can
end the program only in `listDisplays`, `infoDisplays` or `setMainDisplay` on
that target. -/
theorem getoptLoop_no_d (p : Platform) (argv : List Opt) (targetDisplay : Nat) (angle : Int)
    (hnod : ∀ o ∈ argv, o.isD = false) :
    (∃ a, getoptLoop p argv targetDisplay angle = .ok (targetDisplay, a)) ∨
    getoptLoop p argv targetDisplay angle = .error (listDisplays p) ∨
    getoptLoop p argv targetDisplay angle = .error (infoDisplays p) ∨
    getoptLoop p argv targetDisplay angle = .error (setMainDisplay p targetDisplay) := by
  induction argv generalizing angle with
  | nil => exact Or.inl ⟨angle, rfl⟩
  | cons opt rest ih =>
    have hrest : ∀ o ∈ rest, o.isD = false := fun o ho => hnod o (List.mem_cons_of_mem _ ho)
    cases opt with
    | d value => exact absurd (hnod (.d value) (by simp)) (by simp [Opt.isD])
    | l => exact Or.inr (Or.inl rfl)
    | i => exact Or.inr (Or.inr (Or.inl rfl))
    | m => exact Or.inr (Or.inr (Or.inr rfl))
    | r value => exact ih value hrest
    | other => exact ih angle hrest

/-- The rotation step without a target is `usage`, whatever the angle. -/
theorem rotate_zero (k : IOScale) (p : Platform) (angle : Int) :
    rotate k p 0 angle = .exit 1 [.stderr .usage] := by
  simp [rotate, usage]

/-- C16: on a command line without `-d`, with no display of the snapshot
having identifier 0, the run ends in `exit` and none of its events belongs to
a layout transaction or is a rotation request; if the option loop runs to its
end the target is still 0 and the run ends in `usage` with status 1; and the
rotation step with target 0 is `usage` with status 1 for every angle. -/
theorem no_target_no_effect (k : IOScale) (p : Platform) (argv : List Opt)
    (hnod : ∀ o ∈ argv, o.isD = false) (hid : ∀ d ∈ snapshot p, d ≠ 0) :
    (∃ status events, main k p argv = .exit status events ∧
      ∀ e ∈ events, e.isLayout = false ∧ e.isProbe = false) ∧
    (∀ targetDisplay angle, getoptLoop p argv 0 0 = .ok (targetDisplay, angle) →
      targetDisplay = 0 ∧ main k p argv = .exit 1 [.stderr .usage]) ∧
    (∀ angle, rotate k p 0 angle = .exit 1 [.stderr .usage]) := by
  have hzero : (0 : Nat) ∉ snapshot p := fun hc => hid 0 hc rfl
  have hloop := getoptLoop_no_d p argv 0 0 hnod
  refine ⟨?_, ?_, rotate_zero k p⟩
  · rcases hloop with ⟨a, h⟩ | h | h | h
    · refine ⟨1, [.stderr .usage], ?_, by simp [Event.isLayout, Event.isProbe]⟩
      rw [main_of_loop k p argv 0 a h, rotate_zero]
    · have hm : main k p argv = listDisplays p := by simp only [main, h]
      rw [hm, listDisplays_eq]
      split
      · exact ⟨_, _, rfl, by simp [Event.isLayout, Event.isProbe]⟩
      · exact ⟨_, _, rfl, by simp [Event.isLayout, Event.isProbe]⟩
    · have hm : main k p argv = infoDisplays p := by simp only [main, h]
      rw [hm, infoDisplays_eq]
      split
      · exact ⟨_, _, rfl, by simp [Event.isLayout, Event.isProbe]⟩
      · exact ⟨_, _, rfl, by simp [Event.isLayout, Event.isProbe]⟩
    · have hm : main k p argv = setMainDisplay p 0 := by simp only [main, h]
      rw [hm, setMainDisplay_eq, if_neg hzero]
      by_cases hmain : p.CGMainDisplayID = 0
      · rw [if_pos hmain]
        exact ⟨_, _, rfl, by simp⟩
      · rw [if_neg hmain]
        by_cases herr : p.onlineErr ≠ kCGErrorSuccess
        · rw [if_pos herr]
          exact ⟨_, _, rfl, by simp [Event.isLayout, Event.isProbe]⟩
        · rw [if_neg herr]
          exact ⟨_, _, rfl, by simp [Event.isLayout, Event.isProbe]⟩
  · intro t a h
    rcases hloop with ⟨a2, h2⟩ | h2 | h2 | h2
    · rw [h2] at h
      have ht : t = 0 := by
        have := Except.ok.inj h
        simp only [Prod.mk.injEq] at this
        exact this.1.symm
      subst ht
      refine ⟨rfl, ?_⟩
      rw [main_of_loop k p argv 0 a2 h2, rotate_zero]
    · rw [h2] at h; cases h
    · rw [h2] at h; cases h
    · rw [h2] at h; cases h

/-- Witness of C16: `-r 90` alone on `twoDisplays` ends in `usage`, and `-m`
alone fails without a layout transaction. -/
theorem no_target_no_effect_witness :
    (∀ d ∈ snapshot twoDisplays, d ≠ 0) ∧
    main sampleScale twoDisplays [.r 90] = .exit 1 [.stderr .usage] ∧
    ∃ status events, main sampleScale twoDisplays [.m] = .exit status events ∧
      ∀ e ∈ events, e.isLayout = false ∧ e.isProbe = false :=
  ⟨by decide,
    ((no_target_no_effect sampleScale twoDisplays [.r 90] (by decide) (by decide)).2.1
      0 90 rfl).2,
    (no_target_no_effect sampleScale twoDisplays [.m] (by decide) (by decide)).1⟩

/-! ## Angles that are not negative -/

/-- The result for an angle that is not a multiple of 90. -/
theorem angle2options_of_not_multiple (k : IOScale) (a : Int) (h : a % 90 ≠ 0) :
    angle2options k a = readAt (anglebits k) 0 := by
  unfold angle2options
  rw [if_pos ((tmod_ninety_ne_zero_iff a).2 h)]

/-- The result for a multiple of 90 that is not negative: the entry of the
quadrant of the angle reduced modulo 360. -/
theorem angle2options_of_multiple (k : IOScale) (a : Int) (h : 0 ≤ a) (h90 : a % 90 = 0) :
    angle2options k a = readAt (anglebits k) ((a % 360) / 90) := by
  unfold angle2options
  have hm : ¬ (Int.tmod a 90 ≠ 0) := fun hc => (tmod_ninety_ne_zero_iff a).1 hc h90
  rw [if_neg hm]
  have hi : angleIndex a = (a % 360) / 90 := by
    rw [angleIndex_eq_ite, if_pos h]
    omega
  rw [hi]

/-- C17: for an angle that is not negative the subscript `(a / 90) % 4` lies
in 0..3; when the angle is a multiple of 90 the result is the entry of
`anglebits` for the angle `a mod 360` (Rotate0, Rotate90, Rotate180 or
Rotate270 for 0, 90, 180 or 270); and the result at `a` is the result at
`a mod 360`, multiple of 90 or not. -/
theorem angle2options_nonneg (k : IOScale) (a : Int) (h : 0 ≤ a) :
    (0 ≤ angleIndex a ∧ angleIndex a < 4) ∧
    (a % 90 = 0 →
      (a % 360 = 0 → angle2options k a =
        some ((kIOFBSetTransform ||| (k.kIOScaleRotate0 <<< 16)) % 2 ^ 32)) ∧
      (a % 360 = 90 → angle2options k a =
        some ((kIOFBSetTransform ||| (k.kIOScaleRotate90 <<< 16)) % 2 ^ 32)) ∧
      (a % 360 = 180 → angle2options k a =
        some ((kIOFBSetTransform ||| (k.kIOScaleRotate180 <<< 16)) % 2 ^ 32)) ∧
      (a % 360 = 270 → angle2options k a =
        some ((kIOFBSetTransform ||| (k.kIOScaleRotate270 <<< 16)) % 2 ^ 32))) ∧
    angle2options k a = angle2options k (a % 360) := by
  refine ⟨⟨angleIndex_nonneg a h, angleIndex_lt_four a⟩, ?_, ?_⟩
  · intro h90
    rw [angle2options_of_multiple k a h h90]
    refine ⟨?_, ?_, ?_, ?_⟩ <;> intro hq <;> rw [hq] <;> simp [readAt, anglebits]
  · by_cases h90 : a % 90 = 0
    · have h1 : (0 : Int) ≤ a % 360 := by omega
      have h2 : (a % 360) % 90 = 0 := by omega
      have h3 : (a % 360) % 360 = a % 360 := by omega
      rw [angle2options_of_multiple k a h h90, angle2options_of_multiple k (a % 360) h1 h2, h3]
    · have h2 : (a % 360) % 90 ≠ 0 := by omega
      rw [angle2options_of_not_multiple k a h90, angle2options_of_not_multiple k (a % 360) h2]

/-- Witness of C17 at the angle 450, which encodes as 90 does. -/
theorem angle2options_nonneg_witness :
    (0 : Int) ≤ 450 ∧ angleIndex 450 = 1 ∧
    angle2options sampleScale 450 = angle2options sampleScale (450 % 360) ∧
    angle2options sampleScale 450 = some 0x30400 :=
  have h := angle2options_nonneg sampleScale 450 (by decide)
  ⟨by decide, by decide, h.2.2, (h.2.1 (by decide)).2.1 (by decide)⟩

/-! ## Selecting a display without `-r` -/

/-- Without `-r` (and without an option that ends the run) the option loop
returns the angle it starts from. -/
theorem getoptLoop_selectsOnly (p : Platform) (argv : List Opt) (t0 : Nat) (a0 : Int)
    (targetDisplay : Nat) (angle : Int) (hsel : ∀ o ∈ argv, o.selectsOnly = true)
    (h : getoptLoop p argv t0 a0 = .ok (targetDisplay, angle)) : angle = a0 := by
  induction argv generalizing t0 with
  | nil =>
    have := Except.ok.inj h
    simp only [Prod.mk.injEq] at this
    exact this.2.symm
  | cons opt rest ih =>
    have hrest : ∀ o ∈ rest, o.selectsOnly = true :=
      fun o ho => hsel o (List.mem_cons_of_mem _ ho)
    cases opt with
    | d value =>
      rw [getoptLoop_d] at h
      cases hc : caseD p value with
      | error e => rw [hc] at h; cases h
      | ok t => rw [hc] at h; exact ih t hrest h
    | l => exact absurd (hsel .l (by simp)) (by simp [Opt.selectsOnly])
    | i => exact absurd (hsel .i (by simp)) (by simp [Opt.selectsOnly])
    | m => exact absurd (hsel .m (by simp)) (by simp [Opt.selectsOnly])
    | r value => exact absurd (hsel (.r value) (by simp)) (by simp [Opt.selectsOnly])
    | other => exact ih t0 hrest h

/-- The loop of `InternalID` does not ask for the rotation of a display. -/
theorem InternalID_loop_rotation (p : Platform) (rotation : Nat → Int) (fallbackID : Nat)
    (l : List Nat) :
    InternalID.loop { p with CGDisplayRotation := rotation } fallbackID l =
      InternalID.loop p fallbackID l := by
  induction l with
  | nil => rfl
  | cons d rest ih => simp only [InternalID.loop, ih]

/-- The loop of `nonInternalID` does not ask for the rotation of a display. -/
theorem nonInternalID_loop_rotation (p : Platform) (rotation : Nat → Int) (fallbackID : Nat)
    (l : List Nat) :
    nonInternalID.loop { p with CGDisplayRotation := rotation } fallbackID l =
      nonInternalID.loop p fallbackID l := by
  induction l with
  | nil => rfl
  | cons d rest ih => simp only [nonInternalID.loop, ih]

/-- The option `-d` does not ask for the rotation of a display. -/
theorem caseD_rotation (p : Platform) (rotation : Nat → Int) (value : Nat) :
    caseD { p with CGDisplayRotation := rotation } value = caseD p value := by
  have he : enumerate { p with CGDisplayRotation := rotation } = enumerate p := rfl
  have h1 : InternalID { p with CGDisplayRotation := rotation } = InternalID p := by
    simp only [InternalID, he, InternalID_loop_rotation]
  have h2 : nonInternalID { p with CGDisplayRotation := rotation } = nonInternalID p := by
    simp only [nonInternalID, he, nonInternalID_loop_rotation]
  simp only [caseD, h1, h2]

/-- The function `setMainDisplay` does not ask for the rotation of a display. -/
theorem setMainDisplay_rotation (p : Platform) (rotation : Nat → Int) (targetDisplay : Nat) :
    setMainDisplay { p with CGDisplayRotation := rotation } targetDisplay =
      setMainDisplay p targetDisplay := by
  have hloop : ∀ (deltaX deltaY : Int) (l : List Nat),
      setMainDisplay.configureLoop { p with CGDisplayRotation := rotation } deltaX deltaY l =
        setMainDisplay.configureLoop p deltaX deltaY l := by
    intro deltaX deltaY l
    induction l with
    | nil => rfl
    | cons d rest ih => simp only [setMainDisplay.configureLoop, ih]
  have hdelta : setMainDisplay.delta { p with CGDisplayRotation := rotation } targetDisplay =
      setMainDisplay.delta p targetDisplay := rfl
  have htrans : ∀ l : List Nat,
      setMainDisplay.transaction { p with CGDisplayRotation := rotation } targetDisplay l =
        setMainDisplay.transaction p targetDisplay l := by
    intro l
    simp only [setMainDisplay.transaction, hdelta, hloop]
  rw [setMainDisplay_eq, setMainDisplay_eq, htrans]
  rfl

/-- The option loop never asks for the rotation of a display. -/
theorem getoptLoop_rotation (p : Platform) (rotation : Nat → Int) (argv : List Opt)
    (targetDisplay : Nat) (angle : Int) :
    getoptLoop { p with CGDisplayRotation := rotation } argv targetDisplay angle =
      getoptLoop p argv targetDisplay angle := by
  induction argv generalizing targetDisplay angle with
  | nil => rfl
  | cons opt rest ih =>
    cases opt with
    | d value =>
      rw [getoptLoop_d, getoptLoop_d, caseD_rotation]
      cases caseD p value with
      | error e => rfl
      | ok t => exact ih t angle
    | l => rfl
    | i => rfl
    | m => simp only [getoptLoop, setMainDisplay_rotation]
    | r value => exact ih targetDisplay value
    | other => exact ih targetDisplay angle

/-- The rotation step at an angle other than the toggle sentinel does not ask
for the rotation of a display. -/
theorem rotate_rotation (k : IOScale) (p : Platform) (rotation : Nat → Int)
    (targetDisplay : Nat) (angle : Int) (ha : angle ≠ 1) :
    rotate k { p with CGDisplayRotation := rotation } targetDisplay angle =
      rotate k p targetDisplay angle := by
  have hc : cgIDfromU32 { p with CGDisplayRotation := rotation } targetDisplay =
      cgIDfromU32 p targetDisplay := rfl
  simp only [rotate, if_neg ha, hc]

/-- C18: when the command line holds only `-d` options (and unknown ones) and
the option loop runs to its end, the angle is still 0, the run is the rotation
step at angle 0 whatever the current rotation of the displays, every rotation
request carries `angle2options(0)`, and a target of the snapshot receives
exactly one such request. -/
theorem select_only_resets_rotation (k : IOScale) (p : Platform) (argv : List Opt)
    (targetDisplay : Nat) (angle : Int) (hsel : ∀ o ∈ argv, o.selectsOnly = true)
    (hloop : getoptLoop p argv 0 0 = .ok (targetDisplay, angle)) :
    angle = 0 ∧ angle ≠ 1 ∧
    main k p argv = rotate k p targetDisplay 0 ∧
    (∀ rotation : Nat → Int,
      main k { p with CGDisplayRotation := rotation } argv = main k p argv) ∧
    (∀ dID options, (dID, options) ∈ (main k p argv).probes →
      dID = targetDisplay ∧ some options = angle2options k 0) ∧
    (targetDisplay ≠ 0 → p.onlineErr = kCGErrorSuccess → targetDisplay ∈ snapshot p →
      ∃ options, angle2options k 0 = some options ∧
        (main k p argv).probes = [(targetDisplay, options)]) := by
  have ha : angle = 0 := getoptLoop_selectsOnly p argv 0 0 targetDisplay angle hsel hloop
  subst ha
  have hmain : main k p argv = rotate k p targetDisplay 0 := by
    rw [main_of_loop k p argv targetDisplay 0 hloop]
    simp
  refine ⟨rfl, by decide, hmain, ?_, ?_, ?_⟩
  · intro rotation
    have hl2 : getoptLoop { p with CGDisplayRotation := rotation } argv 0 0 =
        .ok (targetDisplay, 0) := by rw [getoptLoop_rotation, hloop]
    rw [main_of_loop k _ argv targetDisplay 0 hl2, hmain]
    simp only [show ¬ ((0 : Int) = 1) by decide, if_false]
    exact rotate_rotation k p rotation targetDisplay 0 (by decide)
  · intro dID options h
    rw [hmain] at h
    exact rotate_probes_mem k p targetDisplay 0 (by decide) dID options h
  · intro ht herr hmem
    rw [hmain]
    exact ⟨_, angle2options_zero k,
      rotate_probes_eq k p targetDisplay 0 _ ht (by decide) (angle2options_zero k) herr hmem⟩

/-- Witness of C18: `-d 200` alone on `twoDisplays` requests the reset of the
rotation of `0x200`. -/
theorem select_only_resets_rotation_witness :
    getoptLoop twoDisplays [.d 0x200] 0 0 = .ok (0x200, 0) ∧
    ∃ options, angle2options sampleScale 0 = some options ∧
      (main sampleScale twoDisplays [.d 0x200]).probes = [(0x200, options)] :=
  ⟨rfl, (select_only_resets_rotation sampleScale twoDisplays [.d 0x200] 0x200 0 (by decide)
    rfl).2.2.2.2.2 (by decide) rfl (by decide)⟩

end FbRotate
